import Mathlib

/-!
Verification development for the FreeRCT widget subsystem (`src/widget.h`).

The repository sample contains only the header `widget.h`: the data model
(widget classes, field layouts, the `WidgetPart` token union, the constants)
and the declarations of the two layout passes (`SetupMinimalSize`,
`SetSmallestSizePosition`) and of the tree builder (`MakeWidgetTree`).
The function bodies live in `widget.cpp`, which is not part of the sample.
Consequently the data model below is translated from the header, while all
algorithmic definitions are modelled from the specification's own
description of the algorithms (sections 4.1-4.3 of the design document);
each such definition carries a doc comment starting `Modelled from the
spec:` naming what is missing.

Machine-integer fields (`uint8`/`uint16`/`int16`) are modelled as `Nat`
resp. `Int`; layout arithmetic in all the properties below stays far below
2^16, so wrap-around is outside the modelled range.
-/

namespace FreeRCT

/-- 2D rectangle with 16-bit coordinates (from `geometry.h`, external to the
sample): a base point and a width/height extent. -/
structure Rectangle16 where
  base_x : Int
  base_y : Int
  width : Nat
  height : Nat
deriving Repr, DecidableEq

/-- `INVALID_WIDGET_INDEX` from `widget.h` line 19: widget number of an
invalid (non-addressable) index. -/
def INVALID_WIDGET_INDEX : Int := -1

/-- `WidgetType` enumeration from `widget.h`. -/
inductive WidgetType where
  | WT_EMPTY
  | WT_TITLEBAR
  | WT_CLOSEBOX
  | WT_RESIZEBOX
  | WT_LEFT_TEXT
  | WT_CENTERED_TEXT
  | WT_RIGHT_TEXT
  | WT_PANEL
  | WT_TEXTBUTTON
  | WT_IMAGEBUTTON
  | WT_RADIOBUTTON
  | WT_HOR_SCROLLBAR
  | WT_VERT_SCROLLBAR
  | WT_GRID
deriving Repr, DecidableEq

/-- The `paddings[PAD_COUNT]` array of `BaseWidget`, with one named field per
`PaddingDirection` slot (`PAD_TOP`, `PAD_LEFT`, `PAD_RIGHT`, `PAD_BOTTOM`,
`PAD_VERTICAL`, `PAD_HORIZONTAL`). The last two are the inter-child
paddings of a container. -/
structure Paddings where
  top : Nat
  left : Nat
  right : Nat
  bottom : Nat
  vertical : Nat
  horizontal : Nat
deriving Repr, DecidableEq

/-- All-zero padding. -/
def Paddings.zero : Paddings := ⟨0, 0, 0, 0, 0, 0⟩

/-- The fields shared by every widget class (`BaseWidget` data members in
`widget.h` lines 64-74). -/
structure WidgetCommon where
  wtype : WidgetType
  number : Int
  min_x : Nat
  min_y : Nat
  pos : Rectangle16
  fill_x : Nat
  fill_y : Nat
  resize_x : Nat
  resize_y : Nat
  paddings : Paddings
deriving Repr, DecidableEq

/-- The extra fields of `LeafWidget` (`flags`, `colour`, `tooltip`). -/
structure LeafData where
  flags : Nat
  colour : Nat
  tooltip : Nat
deriving Repr, DecidableEq

/-- `EQS_HORIZONTAL` equal-size flag bit. -/
def EQS_HORIZONTAL : Nat := 1

/-- `EQS_VERTICAL` equal-size flag bit. -/
def EQS_VERTICAL : Nat := 2

mutual

/-- The widget tree, one constructor per concrete C++ widget class of
`widget.h`: `BaseWidget` itself (WT_EMPTY/WT_CLOSEBOX/WT_RESIZEBOX),
`LeafWidget` (WT_RADIOBUTTON), `DataWidget` (titlebar/text/button kinds),
`ScrollbarWidget`, `BackgroundWidget` (WT_PANEL, with zero or one child —
split into two constructors), and `IntermediateWidget` (WT_GRID — common
fields, `num_rows`, `num_cols`, equal-size `flags`, and the child grid). -/
inductive BaseWidget where
  | base : WidgetCommon → BaseWidget
  | leaf : WidgetCommon → LeafData → BaseWidget
  | dataWidget : WidgetCommon → LeafData → Nat → BaseWidget
  | scrollbar : WidgetCommon → LeafData → Int → BaseWidget
  | backgroundEmpty : WidgetCommon → LeafData → BaseWidget
  | background : WidgetCommon → LeafData → BaseWidget → BaseWidget
  | intermediate : WidgetCommon → Nat → Nat → Nat → WidgetMatrix → BaseWidget

/-- A row of child widgets of an `IntermediateWidget`. -/
inductive WidgetList where
  | nil : WidgetList
  | cons : BaseWidget → WidgetList → WidgetList

/-- The `childs` grid of an `IntermediateWidget`, as a list of rows. -/
inductive WidgetMatrix where
  | nil : WidgetMatrix
  | cons : WidgetList → WidgetMatrix → WidgetMatrix

end

/-- The common-field record of a widget node. -/
def BaseWidget.common : BaseWidget → WidgetCommon
  | .base c => c
  | .leaf c _ => c
  | .dataWidget c _ _ => c
  | .scrollbar c _ _ => c
  | .backgroundEmpty c _ => c
  | .background c _ _ => c
  | .intermediate c _ _ _ _ => c

/-- Replace the common-field record of a widget node. -/
def BaseWidget.withCommon : BaseWidget → WidgetCommon → BaseWidget
  | .base _, c => .base c
  | .leaf _ d, c => .leaf c d
  | .dataWidget _ d v, c => .dataWidget c d v
  | .scrollbar _ d cv, c => .scrollbar c d cv
  | .backgroundEmpty _ d, c => .backgroundEmpty c d
  | .background _ d ch, c => .background c d ch
  | .intermediate _ nr nc f m, c => .intermediate c nr nc f m

/-- Minimal horizontal size of a node (`min_x`). -/
def BaseWidget.minX (w : BaseWidget) : Nat := w.common.min_x

/-- Minimal vertical size of a node (`min_y`). -/
def BaseWidget.minY (w : BaseWidget) : Nat := w.common.min_y

/-- Horizontal fill step of a node (`fill_x`). -/
def BaseWidget.fillX (w : BaseWidget) : Nat := w.common.fill_x

/-- Vertical fill step of a node (`fill_y`). -/
def BaseWidget.fillY (w : BaseWidget) : Nat := w.common.fill_y

/-- Horizontal resize step of a node (`resize_x`). -/
def BaseWidget.resizeX (w : BaseWidget) : Nat := w.common.resize_x

/-- Vertical resize step of a node (`resize_y`). -/
def BaseWidget.resizeY (w : BaseWidget) : Nat := w.common.resize_y

/-- Widget number of a node (`number`). -/
def BaseWidget.numberOf (w : BaseWidget) : Int := w.common.number

/-- Paddings of a node. -/
def BaseWidget.pads (w : BaseWidget) : Paddings := w.common.paddings

/-- Current position rectangle of a node (`pos`). -/
def BaseWidget.posOf (w : BaseWidget) : Rectangle16 := w.common.pos

/-- A row of the child grid as a plain list. -/
def WidgetList.toList : WidgetList → List BaseWidget
  | .nil => []
  | .cons w r => w :: r.toList

/-- The child grid as a plain list of rows. -/
def WidgetMatrix.toLists : WidgetMatrix → List (List BaseWidget)
  | .nil => []
  | .cons r m => r.toList :: m.toLists

/-- Build a grid row from a plain list. -/
def WidgetList.ofList : List BaseWidget → WidgetList
  | [] => .nil
  | w :: r => .cons w (WidgetList.ofList r)

/-- Build a child grid from a plain list of rows. -/
def WidgetMatrix.ofLists : List (List BaseWidget) → WidgetMatrix
  | [] => .nil
  | r :: m => .cons (WidgetList.ofList r) (WidgetMatrix.ofLists m)

/-! ### List helpers used by the row/column aggregation -/

/-- Sum of a list of naturals. -/
def sumList (l : List Nat) : Nat := l.foldr (· + ·) 0

/-- Maximum of a list of naturals (0 for the empty list). -/
def maxList (l : List Nat) : Nat := l.foldr max 0

/-- Pointwise maximum of two lists, keeping the tail of the longer one. -/
def maxMerge : List Nat → List Nat → List Nat
  | [], ys => ys
  | xs, [] => xs
  | x :: xs, y :: ys => max x y :: maxMerge xs ys

/-- Pointwise sum of two lists (truncating to the shorter). -/
def addLists : List Nat → List Nat → List Nat
  | [], _ => []
  | _, [] => []
  | x :: xs, y :: ys => (x + y) :: addLists xs ys

/-- Width a child occupies inside its grid cell column: its minimal width
plus its own left/right padding. -/
def paddedW (w : BaseWidget) : Nat := w.minX + w.pads.left + w.pads.right

/-- Height a child occupies inside its grid cell row: its minimal height
plus its own top/bottom padding. -/
def paddedH (w : BaseWidget) : Nat := w.minY + w.pads.top + w.pads.bottom

/-- Does an equal-size flag value request horizontal equalisation? -/
def eqsHorizontal (flags : Nat) : Bool := flags.testBit 0

/-- Does an equal-size flag value request vertical equalisation? -/
def eqsVertical (flags : Nat) : Bool := flags.testBit 1

/-- Modelled from the spec: the per-column minimal-width aggregation of
`IntermediateWidget::SetupMinimalSize` (body in the absent `widget.cpp`).
Each column's minimal width is the maximum over all children in that column
of the child's minimal width plus that child's own left/right padding. -/
def rawColumnWidths (g : List (List BaseWidget)) : List Nat :=
  g.foldr (fun row acc => maxMerge (row.map paddedW) acc) []

/-- Modelled from the spec: per-row minimal heights, the maximum over the
row's children of minimal height plus own top/bottom padding. -/
def rawRowHeights (g : List (List BaseWidget)) : List Nat :=
  g.map (fun row => maxList (row.map paddedH))

/-- Modelled from the spec: per-column fill steps (maximum of the children's
horizontal fill steps in each column). -/
def rawColumnFills (g : List (List BaseWidget)) : List Nat :=
  g.foldr (fun row acc => maxMerge (row.map BaseWidget.fillX) acc) []

/-- Modelled from the spec: per-row fill steps. -/
def rawRowFills (g : List (List BaseWidget)) : List Nat :=
  g.map (fun row => maxList (row.map BaseWidget.fillY))

/-- Modelled from the spec: per-column resize steps. -/
def rawColumnResizes (g : List (List BaseWidget)) : List Nat :=
  g.foldr (fun row acc => maxMerge (row.map BaseWidget.resizeX) acc) []

/-- Modelled from the spec: per-row resize steps. -/
def rawRowResizes (g : List (List BaseWidget)) : List Nat :=
  g.map (fun row => maxList (row.map BaseWidget.resizeY))

/-- Under an equal-size flag every entry of a row/column aggregate is forced
to the maximum across all entries. -/
def equalize (flag : Bool) (l : List Nat) : List Nat :=
  if flag then l.map (fun _ => maxList l) else l

/-- Modelled from the spec: the final column minimal widths of a grid,
after the optional horizontal equal-size override. -/
def columnWidths (g : List (List BaseWidget)) (flags : Nat) : List Nat :=
  equalize (eqsHorizontal flags) (rawColumnWidths g)

/-- Modelled from the spec: the final row minimal heights of a grid, after
the optional vertical equal-size override. -/
def rowHeights (g : List (List BaseWidget)) (flags : Nat) : List Nat :=
  equalize (eqsVertical flags) (rawRowHeights g)

/-- Modelled from the spec: final per-column fill steps (equal-size aware). -/
def columnFills (g : List (List BaseWidget)) (flags : Nat) : List Nat :=
  equalize (eqsHorizontal flags) (rawColumnFills g)

/-- Modelled from the spec: final per-row fill steps (equal-size aware). -/
def rowFills (g : List (List BaseWidget)) (flags : Nat) : List Nat :=
  equalize (eqsVertical flags) (rawRowFills g)

/-- Modelled from the spec: final per-column resize steps. -/
def columnResizes (g : List (List BaseWidget)) (flags : Nat) : List Nat :=
  equalize (eqsHorizontal flags) (rawColumnResizes g)

/-- Modelled from the spec: final per-row resize steps. -/
def rowResizes (g : List (List BaseWidget)) (flags : Nat) : List Nat :=
  equalize (eqsVertical flags) (rawRowResizes g)

/-! ### Slack distribution -/

/-- Give one extra pixel each to the first `r` entries whose fill step is
nonzero: `addRemainder fills extras r` walks the fill-step list and the
already-computed base extras in parallel. -/
def addRemainder : List Nat → List Nat → Nat → List Nat
  | [], _, _ => []
  | _ :: _, [], _ => []
  | f :: fs, b :: bs, r =>
    if 0 < f ∧ 0 < r then (b + 1) :: addRemainder fs bs (r - 1)
    else b :: addRemainder fs bs r

/-- Modelled from the spec: the slack-distribution rule of
`IntermediateWidget::SetSmallestSizePosition` (body in the absent
`widget.cpp`). Slack is split across columns proportionally to each
column's fill step (integer division against the total fill); a column with
fill step 0 receives nothing; the leftover pixels of the division are handed
out one each to the earliest columns with a nonzero fill step. When every
fill step is zero, no slack is distributed at all. -/
def distributeSlack (fills : List Nat) (slack : Nat) : List Nat :=
  if sumList fills = 0 then fills.map (fun _ => 0)
  else
    addRemainder fills (fills.map (fun f => slack * f / sumList fills))
      (slack - sumList (fills.map (fun f => slack * f / sumList fills)))

/-- The spec's wording of the tie rule, stated as its own function for the
refinement comparison: when all nonzero fill steps are equal, each such
column receives the integer quotient `q` and the first `r` of them one
extra pixel; zero-fill columns receive nothing. -/
def equalTieSplit : List Nat → Nat → Nat → List Nat
  | [], _, _ => []
  | 0 :: fs, q, r => 0 :: equalTieSplit fs q r
  | (_ + 1) :: fs, q, 0 => q :: equalTieSplit fs q 0
  | (_ + 1) :: fs, q, (r + 1) => (q + 1) :: equalTieSplit fs q r

/-- Modelled from the spec: the widths finally assigned to the columns of a
grid given the slack left over by the allotted rectangle — minimal column
widths plus the distributed slack. -/
def assignedColumnWidths (g : List (List BaseWidget)) (flags : Nat) (slack : Nat) : List Nat :=
  addLists (columnWidths g flags) (distributeSlack (columnFills g flags) slack)

/-- Modelled from the spec: the heights finally assigned to the rows of a
grid given the vertical slack. -/
def assignedRowHeights (g : List (List BaseWidget)) (flags : Nat) (slack : Nat) : List Nat :=
  addLists (rowHeights g flags) (distributeSlack (rowFills g flags) slack)

/-! ### The minimal-size pass -/

/-- The widget-number lookup array (`BaseWidget **wid_array` in the header),
modelled as a map from widget number to the registered node. -/
def WidArray := Int → Option BaseWidget

/-- The empty lookup array. -/
def emptyWidArray : WidArray := fun _ => none

/-- Modelled from the spec: `BaseWidget::SetWidget` (header line 77, body in
the absent `widget.cpp`): store the node in the lookup array under its
widget number, unless the number is the `INVALID_WIDGET_INDEX` sentinel. -/
def setWidget (w : BaseWidget) (a : WidArray) : WidArray :=
  if w.numberOf = INVALID_WIDGET_INDEX then a
  else fun i => if i = w.numberOf then some w else a i

/-- Modelled from the spec: the total minimal width of a grid container —
sum of the final column widths, plus the horizontal pre/post spacing
(stored in the left/right padding slots) and the inter-column spacing
counted once per gap. -/
def gridMinX (g : List (List BaseWidget)) (flags : Nat) (p : Paddings) : Nat :=
  sumList (columnWidths g flags) + p.left + p.right +
    ((columnWidths g flags).length - 1) * p.horizontal

/-- Modelled from the spec: the total minimal height of a grid container. -/
def gridMinY (g : List (List BaseWidget)) (flags : Nat) (p : Paddings) : Nat :=
  sumList (rowHeights g flags) + p.top + p.bottom +
    ((rowHeights g flags).length - 1) * p.vertical

mutual

/-- Modelled from the spec: `SetupMinimalSize` (declared `widget.h` line 60,
bodies in the absent `widget.cpp`), the bottom-up minimal-size pass.
External content measurement and border lookup are outside the sample; a
leaf-like node's stored `min_x`/`min_y` stand for its intrinsic content plus
border minimum and are left unchanged. A background node takes the maximum
of its own minimum and its child's minimum plus the background's own
padding; a grid recomputes its row/column aggregates from its children and
sums them with its pre/inter/post spacing. Every node registers itself in
the lookup array via `SetWidget`. -/
def setupMinimalSize : BaseWidget → WidArray → BaseWidget × WidArray
  | .base c, a => (.base c, setWidget (.base c) a)
  | .leaf c d, a => (.leaf c d, setWidget (.leaf c d) a)
  | .dataWidget c d v, a => (.dataWidget c d v, setWidget (.dataWidget c d v) a)
  | .scrollbar c d cv, a => (.scrollbar c d cv, setWidget (.scrollbar c d cv) a)
  | .backgroundEmpty c d, a => (.backgroundEmpty c d, setWidget (.backgroundEmpty c d) a)
  | .background c d ch, a =>
    let r := setupMinimalSize ch a
    let w : BaseWidget := .background
      { c with
        min_x := max c.min_x (r.1.minX + c.paddings.left + c.paddings.right)
        min_y := max c.min_y (r.1.minY + c.paddings.top + c.paddings.bottom) } d r.1
    (w, setWidget w r.2)
  | .intermediate c nr nc flags m, a =>
    let r := setupMatrix m a
    let g := r.1.toLists
    let w : BaseWidget := .intermediate
      { c with
        min_x := gridMinX g flags c.paddings
        min_y := gridMinY g flags c.paddings
        fill_x := maxList (columnFills g flags)
        fill_y := maxList (rowFills g flags)
        resize_x := maxList (columnResizes g flags)
        resize_y := maxList (rowResizes g flags) } nr nc flags r.1
    (w, setWidget w r.2)

/-- Minimal-size pass over one grid row, threading the lookup array. -/
def setupRow : WidgetList → WidArray → WidgetList × WidArray
  | .nil, a => (.nil, a)
  | .cons w rest, a =>
    let r := setupMinimalSize w a
    let rr := setupRow rest r.2
    (.cons r.1 rr.1, rr.2)

/-- Minimal-size pass over a child grid, threading the lookup array. -/
def setupMatrix : WidgetMatrix → WidArray → WidgetMatrix × WidArray
  | .nil, a => (.nil, a)
  | .cons row rest, a =>
    let r := setupRow row a
    let rr := setupMatrix rest r.2
    (.cons r.1 rr.1, rr.2)

end

/-! ### The position-assignment pass -/

/-- A one-dimensional span: start coordinate and extent. -/
def Span := Int × Nat

/-- Modelled from the spec: the consecutive spans of the columns (or rows)
of a grid — the first starts at `start`, each next one after the previous
plus the inter-child spacing `inter`. -/
def spansFrom (start : Int) (inter : Nat) : List Nat → List Span
  | [] => []
  | w :: ws => (start, w) :: spansFrom (start + w + inter) inter ws

/-- Shrink a rectangle by a padding set: used by a background for its child,
and by a grid cell for the child's own padding. -/
def shrinkByPadding (r : Rectangle16) (p : Paddings) : Rectangle16 :=
  ⟨r.base_x + p.left, r.base_y + p.top,
   r.width - (p.left + p.right), r.height - (p.top + p.bottom)⟩

mutual

/-- Modelled from the spec: `SetSmallestSizePosition` (declared `widget.h`
line 61, bodies in the absent `widget.cpp`), the top-down position pass.
A leaf-like node occupies the full rectangle it is given. A background
occupies the full rectangle and hands its child the rectangle shrunk by the
background's own padding. A grid occupies the full rectangle, recomputes
its column widths and row heights, enlarges them by the distributed slack
(allotted size minus stored minimal size), lays the column spans out
left-to-right after the left/pre spacing with the inter spacing between
consecutive columns (rows symmetrically), and hands each child its cell
span shrunk by the child's own padding. -/
def setSmallestSizePosition : BaseWidget → Rectangle16 → BaseWidget
  | .base c, r => .base { c with pos := r }
  | .leaf c d, r => .leaf { c with pos := r } d
  | .dataWidget c d v, r => .dataWidget { c with pos := r } d v
  | .scrollbar c d cv, r => .scrollbar { c with pos := r } d cv
  | .backgroundEmpty c d, r => .backgroundEmpty { c with pos := r } d
  | .background c d ch, r =>
    .background { c with pos := r } d
      (setSmallestSizePosition ch (shrinkByPadding r c.paddings))
  | .intermediate c nr nc flags m, r =>
    let g := m.toLists
    let fcw := assignedColumnWidths g flags (r.width - c.min_x)
    let frh := assignedRowHeights g flags (r.height - c.min_y)
    let colSpans := spansFrom (r.base_x + c.paddings.left) c.paddings.horizontal fcw
    let rowSpans := spansFrom (r.base_y + c.paddings.top) c.paddings.vertical frh
    .intermediate { c with pos := r } nr nc flags (setPosMatrix m rowSpans colSpans)

/-- Position pass over one grid row: each child receives the rectangle
formed by its column span and the row span, shrunk by its own padding. -/
def setPosRow : WidgetList → Span → List Span → WidgetList
  | .nil, _, _ => .nil
  | .cons w rest, _, [] => .cons w rest
  | .cons w rest, rs, cs :: css =>
    let cell : Rectangle16 := ⟨cs.1, rs.1, cs.2, rs.2⟩
    .cons (setSmallestSizePosition w (shrinkByPadding cell w.pads))
      (setPosRow rest rs css)

/-- Position pass over a child grid: one span per row, one per column. -/
def setPosMatrix : WidgetMatrix → List Span → List Span → WidgetMatrix
  | .nil, _, _ => .nil
  | .cons row rest, [], _ => .cons row rest
  | .cons row rest, rs :: rss, cols =>
    .cons (setPosRow row rs cols) (setPosMatrix rest rss cols)

end

/-! ### Widget-part tokens and the tree builder -/

/-- The `WidgetPart` token union of `widget.h` (one constructor per
`WidgetPartType` tag). -/
inductive WidgetPart where
  | newWidget (wtype : WidgetType) (number : Int) (colour : Nat)
  | newIntermediate (num_rows num_cols : Nat)
  | minSize (x y : Nat)
  | fillStep (x y : Nat)
  | resizeStep (x y : Nat)
  | padding (top right bottom left : Nat)
  | horPIP (pre inter post : Nat)
  | vertPIP (pre inter post : Nat)
  | dataVal (value tip : Nat)
  | equalSizeTok (hor vert : Bool)
  | endCon
deriving Repr, DecidableEq

/-- Token constructor `Widget(wtype, number, colour)` from the header. -/
def Widget (wtype : WidgetType) (number : Int) (colour : Nat) : WidgetPart :=
  .newWidget wtype number colour

/-- Token constructor `Intermediate(num_rows, num_cols)` from the header
(`num_cols = 0` means a single row growing as children arrive). -/
def Intermediate (num_rows num_cols : Nat) : WidgetPart :=
  .newIntermediate num_rows num_cols

/-- Token constructor `SetFill(x, y)` from the header. -/
def SetFill (x y : Nat) : WidgetPart := .fillStep x y

/-- Token constructor `SetResize(x, y)` from the header. -/
def SetResize (x y : Nat) : WidgetPart := .resizeStep x y

/-- Token constructor `SetPadding(top, right, bottom, left)` from the header. -/
def SetPadding (top right bottom left : Nat) : WidgetPart :=
  .padding top right bottom left

/-- Token constructor `SetHorPIP(pre, inter, post)` from the header. -/
def SetHorPIP (pre inter post : Nat) : WidgetPart := .horPIP pre inter post

/-- Token constructor `SetVertPIP(pre, inter, post)` from the header. -/
def SetVertPIP (pre inter post : Nat) : WidgetPart := .vertPIP pre inter post

/-- Token constructor `SetData(value, tip)` from the header. -/
def SetData (value tip : Nat) : WidgetPart := .dataVal value tip

/-- Token constructor `SetEqualSize(hor, vert)` from the header. -/
def SetEqualSize (hor vert : Bool) : WidgetPart := .equalSizeTok hor vert

/-- Token constructor `EndContainer()` from the header. -/
def EndContainer : WidgetPart := .endCon

/-- Is the token one of the setters that mutate the current node? -/
def WidgetPart.isSetter : WidgetPart → Bool
  | .minSize _ _ => true
  | .fillStep _ _ => true
  | .resizeStep _ _ => true
  | .padding _ _ _ _ => true
  | .horPIP _ _ _ => true
  | .vertPIP _ _ _ => true
  | .dataVal _ _ => true
  | _ => false

/-- Fresh common fields for a newly created widget of the given type and
number (sizes, fills, resizes and paddings start at zero). -/
def defaultCommon (wtype : WidgetType) (number : Int) : WidgetCommon :=
  { wtype := wtype, number := number, min_x := 0, min_y := 0,
    pos := ⟨0, 0, 0, 0⟩, fill_x := 0, fill_y := 0, resize_x := 0,
    resize_y := 0, paddings := Paddings.zero }

/-- Apply a common-field setter token to a common-field record. The
horizontal PIP stores its pre/inter/post spacing in the left, inter-child
horizontal and right padding slots; the vertical PIP symmetrically in the
top, inter-child vertical and bottom slots. -/
def applyCommonSetter (c : WidgetCommon) : WidgetPart → WidgetCommon
  | .minSize x y => { c with min_x := x, min_y := y }
  | .fillStep x y => { c with fill_x := x, fill_y := y }
  | .resizeStep x y => { c with resize_x := x, resize_y := y }
  | .padding t r b l =>
    { c with paddings := { c.paddings with top := t, right := r, bottom := b, left := l } }
  | .horPIP pre inter post =>
    { c with paddings := { c.paddings with left := pre, horizontal := inter, right := post } }
  | .vertPIP pre inter post =>
    { c with paddings := { c.paddings with top := pre, vertical := inter, bottom := post } }
  | _ => c

/-- Apply a setter token to a finished widget node: `SetData` stores the
value in a data widget and the tool-tip in any leaf-class widget; the other
setters update the common fields. -/
def applyToWidget (w : BaseWidget) : WidgetPart → BaseWidget
  | .dataVal v tip =>
    match w with
    | .dataWidget c d _ => .dataWidget c { d with tooltip := tip } v
    | .leaf c d => .leaf c { d with tooltip := tip }
    | .scrollbar c d cv => .scrollbar c { d with tooltip := tip } cv
    | .background c d ch => .background c { d with tooltip := tip } ch
    | .backgroundEmpty c d => .backgroundEmpty c { d with tooltip := tip }
    | w => w
  | p => w.withCommon (applyCommonSetter w.common p)

/-- An open container on the builder's stack: either a grid being filled
(`WT_GRID`, with its declared row/column counts and the children collected
so far in row-major order) or a background (`WT_PANEL`, with its at most
one child). -/
inductive Frame where
  | gridF (c : WidgetCommon) (flags : Nat) (declRows declCols : Nat)
      (children : List BaseWidget)
  | bgF (c : WidgetCommon) (d : LeafData) (child : Option BaseWidget)

/-- What the builder's "current node" refers to: nothing yet, the last
child appended to the innermost open container, or the innermost open
container itself (just after it was opened). -/
inductive CurRef where
  | noCur
  | lastChild
  | topFrame
deriving DecidableEq

/-- The builder state: the children collected under the synthetic root, the
stack of open containers (innermost first), the current-node reference, the
non-sentinel widget numbers seen so far (for duplicate rejection) and the
running maximum widget number (for the `biggest` out-parameter). -/
structure BuildState where
  rootChildren : List BaseWidget
  frames : List Frame
  cur : CurRef
  seen : List Int
  big : Int

/-- The initial builder state: only the synthetic root is open. -/
def initState : BuildState :=
  { rootChildren := [], frames := [], cur := .noCur, seen := [],
    big := INVALID_WIDGET_INDEX }

/-- Append a finished widget as the newest child of the innermost open
container (or of the synthetic root); fails when a background already has
its single child. -/
def appendChild (s : BuildState) (w : BaseWidget) : Option BuildState :=
  match s.frames with
  | [] => some { s with rootChildren := s.rootChildren ++ [w], cur := .lastChild }
  | .gridF c fl dr dc ch :: rest =>
    some { s with frames := .gridF c fl dr dc (ch ++ [w]) :: rest, cur := .lastChild }
  | .bgF c d none :: rest =>
    some { s with frames := .bgF c d (some w) :: rest, cur := .lastChild }
  | .bgF _ _ (some _) :: _ => none

/-- Update the last element of a list; fails on the empty list. -/
def updateLast (f : BaseWidget → BaseWidget) : List BaseWidget → Option (List BaseWidget)
  | [] => none
  | [w] => some [f w]
  | w :: rest => (updateLast f rest).map (w :: ·)

/-- Apply a setter token to the builder's current node; fails when there is
no current node. -/
def applySetter (s : BuildState) (p : WidgetPart) : Option BuildState :=
  match s.cur with
  | .noCur => none
  | .topFrame =>
    match s.frames with
    | [] => none
    | .gridF c fl dr dc ch :: rest =>
      some { s with frames := .gridF (applyCommonSetter c p) fl dr dc ch :: rest }
    | .bgF c d child :: rest =>
      match p with
      | .dataVal _ tip =>
        some { s with frames := .bgF c { d with tooltip := tip } child :: rest }
      | _ => some { s with frames := .bgF (applyCommonSetter c p) d child :: rest }
  | .lastChild =>
    match s.frames with
    | [] =>
      (updateLast (applyToWidget · p) s.rootChildren).map
        (fun l => { s with rootChildren := l })
    | .gridF c fl dr dc ch :: rest =>
      (updateLast (applyToWidget · p) ch).map
        (fun l => { s with frames := .gridF c fl dr dc l :: rest })
    | .bgF c d (some w) :: rest =>
      some { s with frames := .bgF c d (some (applyToWidget w p)) :: rest }
    | .bgF _ _ none :: _ => none

/-- Record a widget number: the sentinel is ignored, a duplicate
non-sentinel number is a malformed stream, otherwise it joins the seen set
and the running maximum. -/
def recordNumber (s : BuildState) (n : Int) : Option BuildState :=
  if n = INVALID_WIDGET_INDEX then some s
  else if n ∈ s.seen then none
  else some { s with seen := n :: s.seen, big := max s.big n }

/-- Split a row-major child list into `rows` rows of exactly `cols`
children each; fails when the grid is not fully populated. -/
def chunkInto : Nat → Nat → List BaseWidget → Option (List (List BaseWidget))
  | 0, _, [] => some []
  | 0, _, _ :: _ => none
  | r + 1, cols, l =>
    if cols ≤ l.length then
      (chunkInto r cols (l.drop cols)).map (l.take cols :: ·)
    else none

/-- Close an open container: a background becomes a (possibly childless)
background node; a grid with declared `num_cols = 0` becomes a single-row
grid of as many columns as children arrived, any other grid must be fully
populated (`rows * cols` children, row-major). -/
def finalizeFrame : Frame → Option BaseWidget
  | .bgF c d none => some (.backgroundEmpty c d)
  | .bgF c d (some w) => some (.background c d w)
  | .gridF c flags declRows declCols ch =>
    if declCols = 0 then
      some (.intermediate c 1 ch.length flags (WidgetMatrix.ofLists [ch]))
    else
      (chunkInto declRows declCols ch).map
        (fun rows => .intermediate c declRows declCols flags (WidgetMatrix.ofLists rows))

/-- Instantiate the concrete node variant for a `Widget` token and place it:
a non-container widget joins the innermost open container and becomes the
current node, a `WT_PANEL` opens a background container, and `WT_GRID`
cannot be requested through a `Widget` token. -/
def placeNewWidget (s : BuildState) (wtype : WidgetType) (n : Int) (colour : Nat) :
    Option BuildState :=
  match wtype with
  | .WT_GRID => none
  | .WT_PANEL =>
    some { s with
      frames := .bgF (defaultCommon .WT_PANEL n) ⟨0, colour, 0⟩ none :: s.frames,
      cur := .topFrame }
  | .WT_EMPTY => appendChild s (.base (defaultCommon .WT_EMPTY n))
  | .WT_CLOSEBOX => appendChild s (.base (defaultCommon .WT_CLOSEBOX n))
  | .WT_RESIZEBOX => appendChild s (.base (defaultCommon .WT_RESIZEBOX n))
  | .WT_RADIOBUTTON =>
    appendChild s (.leaf (defaultCommon .WT_RADIOBUTTON n) ⟨0, colour, 0⟩)
  | .WT_HOR_SCROLLBAR =>
    appendChild s (.scrollbar (defaultCommon .WT_HOR_SCROLLBAR n) ⟨0, colour, 0⟩ INVALID_WIDGET_INDEX)
  | .WT_VERT_SCROLLBAR =>
    appendChild s (.scrollbar (defaultCommon .WT_VERT_SCROLLBAR n) ⟨0, colour, 0⟩ INVALID_WIDGET_INDEX)
  | wt => appendChild s (.dataWidget (defaultCommon wt n) ⟨0, colour, 0⟩ 0)

/-- Modelled from the spec: one step of `MakeWidgetTree` (body in the
absent `widget.cpp`), consuming a single token. A new non-container widget
joins the innermost open container and becomes the current node; `WT_PANEL`
and an intermediate token open a container (which is also the current
node); `EndContainer` pops the stack and fails on the synthetic root;
`SetEqualSize` applies to the innermost open grid; every other setter
mutates the current node; widget numbers are checked for duplicates. -/
def buildStep (s : BuildState) : WidgetPart → Option BuildState
  | .newWidget wtype n colour =>
    (recordNumber s n).bind fun s' => placeNewWidget s' wtype n colour
  | .newIntermediate r c =>
    some { s with
      frames := .gridF (defaultCommon .WT_GRID INVALID_WIDGET_INDEX) 0 r c [] :: s.frames,
      cur := .topFrame }
  | .endCon =>
    match s.frames with
    | [] => none
    | fr :: rest => (finalizeFrame fr).bind (appendChild { s with frames := rest })
  | .equalSizeTok hor vert =>
    match s.frames with
    | .gridF c _ dr dc ch :: rest =>
      some { s with
        frames := .gridF c ((cond hor EQS_HORIZONTAL 0) + (cond vert EQS_VERTICAL 0)) dr dc ch :: rest }
    | _ => none
  | p => applySetter s p

/-- Run the builder over a token list from a given state. -/
def runParts (s : BuildState) : List WidgetPart → Option BuildState
  | [] => some s
  | p :: ps => (buildStep s p).bind (runParts · ps)

/-- Final check of the builder: all explicitly opened containers must be
closed and the synthetic root must hold exactly one tree; the result is
that tree together with the largest widget number seen. -/
def finalizeBuild (s : BuildState) : Option (BaseWidget × Int) :=
  match s.frames, s.rootChildren with
  | [], [w] => some (w, s.big)
  | _, _ => none

/-- Modelled from the spec: `MakeWidgetTree` (declared `widget.h` line 242,
body in the absent `widget.cpp`). Consumes the token stream and returns the
root widget together with the `biggest` out-parameter, or `none` on a
malformed stream (no partial tree is returned). -/
def MakeWidgetTree (parts : List WidgetPart) : Option (BaseWidget × Int) :=
  (runParts initState parts).bind finalizeBuild

/-! ### Derived observations on trees -/

instance : Inhabited BaseWidget :=
  ⟨.base (defaultCommon .WT_EMPTY INVALID_WIDGET_INDEX)⟩

mutual

/-- All nodes of a widget tree, the root first. -/
def nodesOf : BaseWidget → List BaseWidget
  | .background c d ch => .background c d ch :: nodesOf ch
  | .intermediate c nr nc f m => .intermediate c nr nc f m :: nodesMatrix m
  | w => [w]

/-- All nodes of the widgets of a grid row. -/
def nodesRow : WidgetList → List BaseWidget
  | .nil => []
  | .cons w r => nodesOf w ++ nodesRow r

/-- All nodes of the widgets of a child grid. -/
def nodesMatrix : WidgetMatrix → List BaseWidget
  | .nil => []
  | .cons r m => nodesRow r ++ nodesMatrix m

end

/-- The widget numbers appearing in a tree (sentinel included). -/
def treeNumbers (w : BaseWidget) : List Int := (nodesOf w).map BaseWidget.numberOf

/-- The maximum of a list of widget numbers, starting from the sentinel. -/
def maxNumList (l : List Int) : Int := l.foldr max INVALID_WIDGET_INDEX

/-- The largest widget number referenced in a tree. -/
def maxTreeNumber (w : BaseWidget) : Int := maxNumList (treeNumbers w)

/-- Does every widget number of the tree respect the documented convention,
i.e. is it the sentinel or non-negative? -/
def numbersValid (w : BaseWidget) : Bool :=
  (treeNumbers w).all (fun n => INVALID_WIDGET_INDEX ≤ n)

/-- Is the node a leaf-like node (no owned children)? -/
def isLeafNode : BaseWidget → Bool
  | .base _ => true
  | .leaf _ _ => true
  | .dataWidget _ _ _ => true
  | .scrollbar _ _ _ => true
  | .backgroundEmpty _ _ => true
  | _ => false

/-- Zero out the geometry fields of a common-field record. -/
def eraseGeomCommon (c : WidgetCommon) : WidgetCommon :=
  { c with min_x := 0, min_y := 0, pos := ⟨0, 0, 0, 0⟩, fill_x := 0, fill_y := 0, resize_x := 0, resize_y := 0 }

mutual

/-- Erase all geometry (minimal sizes, fill/resize steps, position) from a
tree, keeping its structure, kinds, numbers, paddings and flags: the layout
passes only ever change the erased fields. -/
def eraseGeom : BaseWidget → BaseWidget
  | .base c => .base (eraseGeomCommon c)
  | .leaf c d => .leaf (eraseGeomCommon c) d
  | .dataWidget c d v => .dataWidget (eraseGeomCommon c) d v
  | .scrollbar c d cv => .scrollbar (eraseGeomCommon c) d cv
  | .backgroundEmpty c d => .backgroundEmpty (eraseGeomCommon c) d
  | .background c d ch => .background (eraseGeomCommon c) d (eraseGeom ch)
  | .intermediate c nr nc f m => .intermediate (eraseGeomCommon c) nr nc f (eraseGeomMatrix m)

/-- Geometry erasure over a grid row. -/
def eraseGeomRow : WidgetList → WidgetList
  | .nil => .nil
  | .cons w r => .cons (eraseGeom w) (eraseGeomRow r)

/-- Geometry erasure over a child grid. -/
def eraseGeomMatrix : WidgetMatrix → WidgetMatrix
  | .nil => .nil
  | .cons r m => .cons (eraseGeomRow r) (eraseGeomMatrix m)

end

mutual

/-- Structural well-formedness of a tree: every grid's child matrix has
exactly the declared number of rows, each of the declared number of
columns (a dense, fully populated grid). -/
def wellFormed : BaseWidget → Bool
  | .background _ _ ch => wellFormed ch
  | .intermediate _ nr nc _ m =>
    decide (m.toLists.length = nr) &&
      m.toLists.all (fun r => decide (r.length = nc)) && wellFormedMatrix m
  | _ => true

/-- Well-formedness of all widgets of a grid row. -/
def wellFormedRow : WidgetList → Bool
  | .nil => true
  | .cons w r => wellFormed w && wellFormedRow r

/-- Well-formedness of all widgets of a child grid. -/
def wellFormedMatrix : WidgetMatrix → Bool
  | .nil => true
  | .cons r m => wellFormedRow r && wellFormedMatrix m

end

mutual

/-- The invariant established by the minimal-size pass that the position
pass relies on: every background's stored minimal size covers its child's
minimal size plus the background's own padding. -/
def minConsistent : BaseWidget → Bool
  | .background c _ ch =>
    decide (ch.minX + c.paddings.left + c.paddings.right ≤ c.min_x) &&
      decide (ch.minY + c.paddings.top + c.paddings.bottom ≤ c.min_y) &&
      minConsistent ch
  | .intermediate _ _ _ _ m => minConsistentMatrix m
  | _ => true

/-- The invariant over a grid row. -/
def minConsistentRow : WidgetList → Bool
  | .nil => true
  | .cons w r => minConsistent w && minConsistentRow r

/-- The invariant over a child grid. -/
def minConsistentMatrix : WidgetMatrix → Bool
  | .nil => true
  | .cons r m => minConsistentRow r && minConsistentMatrix m

end

/-- The non-sentinel widget numbers introduced by the `Widget` tokens of a
stream, in order. -/
def tokenNumbers (parts : List WidgetPart) : List Int :=
  parts.filterMap fun p =>
    match p with
    | .newWidget _ n _ => if n = INVALID_WIDGET_INDEX then none else some n
    | _ => none

/-! ### Concrete fixtures -/

/-- A leaf of given number, minimal size and fill steps (fixture builder). -/
def mkLeaf (n : Int) (mx my fx fy : Nat) : BaseWidget :=
  .base { defaultCommon .WT_EMPTY n with min_x := mx, min_y := my, fill_x := fx, fill_y := fy }

/-- Token stream of the slack-distribution example: one grid row of two
columns with fill steps `[1, 1]` and minimal widths 50 each (container
minimal width 100). -/
def partsTwoColumns : List WidgetPart :=
  [Intermediate 1 2,
   Widget .WT_EMPTY 0 0, .minSize 50 50, SetFill 1 1,
   Widget .WT_EMPTY 1 0, .minSize 50 50, SetFill 1 1,
   EndContainer]

/-- The tree built from `partsTwoColumns`, after the minimal-size pass. -/
def treeTwoColumns : BaseWidget :=
  (setupMinimalSize ((MakeWidgetTree partsTwoColumns).getD (default, 0)).1 emptyWidArray).1

/-- Token stream of the equal-size example: one grid row of three columns
with minimal widths `[10, 30, 20]` and the horizontal equal-size flag. -/
def partsEqualSize : List WidgetPart :=
  [Intermediate 1 3, SetEqualSize true false,
   Widget .WT_EMPTY 0 0, .minSize 10 10,
   Widget .WT_EMPTY 1 0, .minSize 30 30,
   Widget .WT_EMPTY 2 0, .minSize 20 20,
   EndContainer]

/-- The tree built from `partsEqualSize`. -/
def treeEqualSize : BaseWidget :=
  ((MakeWidgetTree partsEqualSize).getD (default, 0)).1

/-- Token stream of the background-padding example: a panel with padding
top 2, right 3, bottom 2, left 3 around a child of minimal size (10, 10). -/
def partsPaddedPanel : List WidgetPart :=
  [Widget .WT_PANEL 0 0, SetPadding 2 3 2 3,
   Widget .WT_EMPTY 1 0, .minSize 10 10,
   EndContainer]

/-- The tree built from `partsPaddedPanel`. -/
def treePaddedPanel : BaseWidget :=
  ((MakeWidgetTree partsPaddedPanel).getD (default, 0)).1

/-- A background whose own minimum (50, 50) exceeds its child's minimum
(10, 10): the round-trip stretches the child. -/
def bgStretch : BaseWidget :=
  .background { defaultCommon .WT_PANEL 0 with min_x := 50, min_y := 50 }
    ⟨0, 0, 0⟩ (mkLeaf 1 10 10 0 0)

/-- The child of a background node, when there is one. -/
def childOf : BaseWidget → Option BaseWidget
  | .background _ _ ch => some ch
  | _ => none

/-- A grid row fits a list of column spans: there is a span for every
child, each child's padded minimal width fits its span, and each child
satisfies the minimal-size invariant. -/
def rowFits : WidgetList → List Span → Prop
  | .nil, _ => True
  | .cons _ _, [] => False
  | .cons w rest, cs :: css =>
    (paddedW w ≤ cs.2 ∧ minConsistent w = true) ∧ rowFits rest css

/-- A child grid fits its row spans and column spans: a span for every row,
each row's children padded-height-fitting their row span and fitting the
column spans. -/
def matrixFits : WidgetMatrix → List Span → List Span → Prop
  | .nil, _, _ => True
  | .cons _ _, [], _ => False
  | .cons row rest, rs :: rss, css =>
    (rowFits row css ∧ ∀ w ∈ row.toList, paddedH w ≤ rs.2) ∧ matrixFits rest rss css

/-- One grid cell is below another: the minimal sizes grew (or stayed) and
the cell's own paddings are unchanged. -/
def cellLE (w w' : BaseWidget) : Prop :=
  w.minX ≤ w'.minX ∧ w.minY ≤ w'.minY ∧ w.pads = w'.pads

/-- Pointwise `cellLE` over two equally shaped child grids. -/
def gridLE (g g' : List (List BaseWidget)) : Prop :=
  List.Forall₂ (List.Forall₂ cellLE) g g'

/-- Number of entries with a nonzero fill step. -/
def countPos (l : List Nat) : Nat := l.countP (fun x => decide (0 < x))

/-- The `i`-th row of a child grid (empty row when out of range). -/
def matRow : WidgetMatrix → Nat → WidgetList
  | .nil, _ => .nil
  | .cons row _, 0 => row
  | .cons _ rest, i + 1 => matRow rest i

/-- The child grid of a grid node (empty for other nodes). -/
def gridChilds : BaseWidget → List (List BaseWidget)
  | .intermediate _ _ _ _ m => m.toLists
  | _ => []

/-- The equal-size flags of a grid node. -/
def gridFlags : BaseWidget → Nat
  | .intermediate _ _ _ f _ => f
  | _ => 0

/-! ## Theorems

### List and slack-distribution lemmas -/

theorem sumList_cons (x : Nat) (l : List Nat) : sumList (x :: l) = x + sumList l := rfl

theorem maxList_cons (x : Nat) (l : List Nat) : maxList (x :: l) = max x (maxList l) := rfl

theorem sumList_eq_zero {l : List Nat} (h : ∀ x ∈ l, x = 0) : sumList l = 0 := by
  induction l with
  | nil => rfl
  | cons x xs ih =>
    have hx := h x (by simp)
    have hr := ih (fun y hy => h y (List.mem_cons_of_mem _ hy))
    simp [sumList_cons, hx, hr]

theorem mem_le_maxList {x : Nat} {l : List Nat} (h : x ∈ l) : x ≤ maxList l := by
  induction l with
  | nil => cases h
  | cons y ys ih =>
    rw [maxList_cons]
    rcases List.mem_cons.mp h with rfl | h'
    · exact le_max_left _ _
    · exact le_trans (ih h') (le_max_right _ _)

theorem mapZero_getD (l : List Nat) (i : Nat) :
    (l.map (fun _ => (0 : Nat))).getD i 0 = 0 := by
  induction l generalizing i with
  | nil => simp
  | cons x xs ih => cases i <;> simp [ih]

theorem mapDiv_getD (slack total : Nat) (l : List Nat) (i : Nat) :
    (l.map (fun x => slack * x / total)).getD i 0 = slack * (l.getD i 0) / total := by
  induction l generalizing i with
  | nil => simp
  | cons x xs ih =>
    cases i with
    | zero => simp
    | succ j =>
      simp only [List.map_cons, List.getD_cons_succ]
      exact ih j

theorem maxMerge_length (a b : List Nat) :
    (maxMerge a b).length = max a.length b.length := by
  induction a generalizing b with
  | nil => simp [maxMerge]
  | cons x xs ih =>
    cases b with
    | nil => simp [maxMerge]
    | cons y ys => simp [maxMerge, ih, Nat.succ_max_succ]

theorem maxMerge_getD (a b : List Nat) (i : Nat) :
    (maxMerge a b).getD i 0 = max (a.getD i 0) (b.getD i 0) := by
  induction a generalizing b i with
  | nil => simp [maxMerge]
  | cons x xs ih =>
    cases b with
    | nil => simp [maxMerge]
    | cons y ys =>
      cases i with
      | zero => simp [maxMerge]
      | succ j =>
        simp only [maxMerge, List.getD_cons_succ]
        exact ih ys j

theorem addLists_length (a b : List Nat) :
    (addLists a b).length = min a.length b.length := by
  induction a generalizing b with
  | nil => simp [addLists]
  | cons x xs ih =>
    cases b with
    | nil => simp [addLists]
    | cons y ys => simp [addLists, ih, Nat.succ_min_succ]

theorem addLists_getD (a b : List Nat) (i : Nat) (ha : i < a.length) (hb : i < b.length) :
    (addLists a b).getD i 0 = a.getD i 0 + b.getD i 0 := by
  induction a generalizing b i with
  | nil => simp at ha
  | cons x xs ih =>
    cases b with
    | nil => simp at hb
    | cons y ys =>
      cases i with
      | zero => simp [addLists]
      | succ j =>
        simp only [addLists, List.getD_cons_succ]
        exact ih ys j (by simpa using ha) (by simpa using hb)

theorem addLists_zeros (a b : List Nat) (h : ∀ x ∈ b, x = 0) (hl : a.length ≤ b.length) :
    addLists a b = a := by
  induction a generalizing b with
  | nil => simp [addLists]
  | cons x xs ih =>
    cases b with
    | nil => simp at hl
    | cons y ys =>
      have hy := h y (by simp)
      simp only [addLists, hy, Nat.add_zero, List.cons.injEq, true_and]
      exact ih ys (fun z hz => h z (List.mem_cons_of_mem _ hz)) (by simpa using hl)

theorem addRemainder_length (f b : List Nat) (r : Nat) :
    (addRemainder f b r).length = min f.length b.length := by
  induction f generalizing b r with
  | nil => simp [addRemainder]
  | cons x xs ih =>
    cases b with
    | nil => simp [addRemainder]
    | cons y ys =>
      simp only [addRemainder]
      split <;> simp [ih, Nat.succ_min_succ]

theorem addRemainder_getD_ge (f b : List Nat) (r i : Nat)
    (h1 : i < f.length) (h2 : i < b.length) :
    b.getD i 0 ≤ (addRemainder f b r).getD i 0 := by
  induction f generalizing b r i with
  | nil => simp at h1
  | cons x xs ih =>
    cases b with
    | nil => simp at h2
    | cons y ys =>
      cases i with
      | zero =>
        simp only [addRemainder]
        split <;> simp
      | succ j =>
        simp only [addRemainder]
        have hj1 : j < xs.length := by simpa using h1
        have hj2 : j < ys.length := by simpa using h2
        split <;> simpa using ih ys _ j hj1 hj2

theorem addRemainder_zero_at (f b : List Nat) (r i : Nat) (hf : f.getD i 0 = 0)
    (h1 : i < f.length) (h2 : i < b.length) :
    (addRemainder f b r).getD i 0 = b.getD i 0 := by
  induction f generalizing b r i with
  | nil => simp at h1
  | cons x xs ih =>
    cases b with
    | nil => simp at h2
    | cons y ys =>
      cases i with
      | zero =>
        simp only [List.getD_cons_zero] at hf
        subst hf
        simp [addRemainder]
      | succ j =>
        simp only [List.getD_cons_succ] at hf ⊢
        have hj1 : j < xs.length := by simpa using h1
        have hj2 : j < ys.length := by simpa using h2
        simp only [addRemainder]
        split <;> simpa using ih ys _ j hf hj1 hj2

theorem distributeSlack_length (fills : List Nat) (slack : Nat) :
    (distributeSlack fills slack).length = fills.length := by
  unfold distributeSlack
  split
  · simp
  · simp [addRemainder_length]

theorem distributeSlack_zero_at (fills : List Nat) (slack i : Nat)
    (h : fills.getD i 0 = 0) (hi : i < fills.length) :
    (distributeSlack fills slack).getD i 0 = 0 := by
  unfold distributeSlack
  split
  · exact mapZero_getD _ _
  · rw [addRemainder_zero_at _ _ _ _ h hi (by simpa using hi), mapDiv_getD, h]
    simp

theorem distributeSlack_getD_ge (fills : List Nat) (slack i : Nat) (hi : i < fills.length) :
    slack * fills.getD i 0 / sumList fills ≤ (distributeSlack fills slack).getD i 0 := by
  unfold distributeSlack
  split
  · rename_i h
    rw [h]
    simp [mapZero_getD]
  · rw [← mapDiv_getD slack (sumList fills) fills i]
    exact addRemainder_getD_ge _ _ _ _ hi (by simpa using hi)

theorem distributeSlack_all_zero (fills : List Nat) (slack : Nat)
    (h : ∀ x ∈ fills, x = 0) :
    distributeSlack fills slack = fills.map (fun _ => 0) := by
  unfold distributeSlack
  rw [if_pos (sumList_eq_zero h)]

theorem countPos_cons (x : Nat) (l : List Nat) :
    countPos (x :: l) = countPos l + (if 0 < x then 1 else 0) := by
  simp [countPos, List.countP_cons]

theorem sumList_equal_fills {f : Nat} (hf : 0 < f) {l : List Nat}
    (h : ∀ x ∈ l, x = 0 ∨ x = f) : sumList l = countPos l * f := by
  induction l with
  | nil => simp [sumList, countPos]
  | cons x xs ih =>
    have hr := ih (fun y hy => h y (List.mem_cons_of_mem _ hy))
    rcases h x (by simp) with rfl | rfl
    · simp [sumList_cons, countPos_cons, hr]
    · simp only [sumList_cons, countPos_cons, hr, if_pos hf]
      ring

theorem sumList_map_uniform (g : Nat → Nat) (f q : Nat) (hg0 : g 0 = 0) (hgf : g f = q)
    (hf : 0 < f) {l : List Nat} (h : ∀ x ∈ l, x = 0 ∨ x = f) :
    sumList (l.map g) = countPos l * q := by
  induction l with
  | nil => simp [sumList, countPos]
  | cons x xs ih =>
    have hr := ih (fun y hy => h y (List.mem_cons_of_mem _ hy))
    rcases h x (by simp) with rfl | rfl
    · simp [sumList_cons, countPos_cons, hr, hg0]
    · simp only [List.map_cons, sumList_cons, countPos_cons, hr, hgf, if_pos hf]
      ring

theorem addRemainder_uniform (g : Nat → Nat) (q f : Nat) (hg0 : g 0 = 0) (hgf : g f = q)
    (hf : 0 < f) :
    ∀ (l : List Nat) (r : Nat), (∀ x ∈ l, x = 0 ∨ x = f) →
      addRemainder l (l.map g) r = equalTieSplit l q r := by
  intro l
  induction l with
  | nil => intro r _; rfl
  | cons x xs ih =>
    intro r h
    have hr := fun r => ih r (fun y hy => h y (List.mem_cons_of_mem _ hy))
    rcases h x (by simp) with rfl | rfl
    · simp only [List.map_cons, hg0, addRemainder]
      rw [if_neg (by omega)]
      simp [equalTieSplit, hr]
    · obtain ⟨y, rfl⟩ := Nat.exists_eq_succ_of_ne_zero (by omega : x ≠ 0)
      cases r with
      | zero =>
        simp only [List.map_cons, hgf, addRemainder]
        rw [if_neg (by omega)]
        simp [equalTieSplit, hr]
      | succ r' =>
        simp only [List.map_cons, hgf, addRemainder]
        rw [if_pos (by omega)]
        simp [equalTieSplit, hr]

theorem sumList_equalTieSplit (q : Nat) :
    ∀ (l : List Nat) (r : Nat),
      sumList (equalTieSplit l q r) = countPos l * q + min r (countPos l) := by
  intro l
  induction l with
  | nil => intro r; simp [equalTieSplit, countPos, sumList]
  | cons x xs ih =>
    intro r
    cases x with
    | zero => simp [equalTieSplit, sumList_cons, countPos_cons, ih]
    | succ y =>
      cases r with
      | zero =>
        simp only [equalTieSplit, sumList_cons, countPos_cons, ih]
        rw [if_pos (by omega), Nat.succ_mul]
        omega
      | succ r' =>
        simp only [equalTieSplit, sumList_cons, countPos_cons, ih]
        rw [if_pos (by omega), Nat.succ_mul]
        omega

theorem distributeSlack_equal (fills : List Nat) (slack f : Nat)
    (hall : ∀ x ∈ fills, x = 0 ∨ x = f) (hf : 0 < f) (hk : 0 < countPos fills) :
    distributeSlack fills slack =
      equalTieSplit fills (slack / countPos fills) (slack % countPos fills) := by
  have htot : sumList fills = countPos fills * f := sumList_equal_fills hf hall
  have htot0 : ¬ sumList fills = 0 := by
    rw [htot]
    have : 0 < countPos fills * f := Nat.mul_pos hk hf
    omega
  have hgf : slack * f / sumList fills = slack / countPos fills := by
    rw [htot, Nat.mul_comm (countPos fills) f, Nat.mul_comm slack f,
      Nat.mul_div_mul_left _ _ hf]
  have hg0 : slack * 0 / sumList fills = 0 := by simp
  have hsum : sumList (fills.map (fun x => slack * x / sumList fills)) =
      countPos fills * (slack / countPos fills) :=
    sumList_map_uniform (fun x => slack * x / sumList fills) f
      (slack / countPos fills) hg0 hgf hf hall
  unfold distributeSlack
  rw [if_neg htot0, hsum]
  have hrem : slack - countPos fills * (slack / countPos fills) = slack % countPos fills := by
    have := Nat.div_add_mod slack (countPos fills)
    omega
  rw [hrem]
  exact addRemainder_uniform _ _ f hg0 hgf hf fills _ hall

theorem rawColumnFills_length (g : List (List BaseWidget)) :
    (rawColumnFills g).length = (rawColumnWidths g).length := by
  induction g with
  | nil => rfl
  | cons row rest ih =>
    simp [rawColumnFills, rawColumnWidths] at ih ⊢
    simp [maxMerge_length, ih]

theorem equalize_length (fl : Bool) (l : List Nat) : (equalize fl l).length = l.length := by
  unfold equalize
  split <;> simp

theorem columnFills_length (g : List (List BaseWidget)) (flags : Nat) :
    (columnFills g flags).length = (columnWidths g flags).length := by
  simp [columnFills, columnWidths, equalize_length, rawColumnFills_length]

/-- C1: when all nonzero fill steps are equal, `distributeSlack` realises
exactly the spec's tie rule (quotient by the number of fillable columns,
left-biased remainder) and loses no pixel; concretely, the two-column grid
of fill steps `[1, 1]` and minimal width 100 distributes 7 extra pixels of
allotted width as 4 to the first column and 3 to the second. -/
theorem slack_tie_rule (fills : List Nat) (slack f : Nat)
    (hall : ∀ x ∈ fills, x = 0 ∨ x = f) (hf : 0 < f) (hk : 0 < countPos fills) :
    distributeSlack fills slack =
      equalTieSplit fills (slack / countPos fills) (slack % countPos fills) ∧
    sumList (distributeSlack fills slack) = slack ∧
    distributeSlack [1, 1] 7 = [4, 3] ∧
    treeTwoColumns.minX = 100 ∧
    assignedColumnWidths (gridChilds treeTwoColumns) (gridFlags treeTwoColumns) 7 = [54, 53] := by
  have heq := distributeSlack_equal fills slack f hall hf hk
  refine ⟨heq, ?_, by decide, by decide, by decide⟩
  rw [heq, sumList_equalTieSplit]
  have hlt : slack % countPos fills < countPos fills := Nat.mod_lt _ hk
  have := Nat.div_add_mod slack (countPos fills)
  omega

/-- Witness for `slack_tie_rule` at fill steps `[1, 1]` and slack 7. -/
theorem slack_tie_rule_witness :
    distributeSlack [1, 1] 7 =
      equalTieSplit [1, 1] (7 / countPos [1, 1]) (7 % countPos [1, 1]) ∧
    sumList (distributeSlack [1, 1] 7) = 7 := by
  have h := slack_tie_rule [1, 1] 7 1 (by decide) (by decide) (by decide)
  exact ⟨h.1, h.2.1⟩

/-- C8: a column whose aggregated fill step is 0 receives no slack at all —
its assigned width equals its minimal width no matter how much slack there
is; when every column has fill step 0, the assigned widths all equal the
minimal widths and the whole slack stays unused. -/
theorem zero_fill_no_slack (g : List (List BaseWidget)) (flags slack i : Nat)
    (hi : i < (columnFills g flags).length)
    (h0 : (columnFills g flags).getD i 0 = 0) :
    (distributeSlack (columnFills g flags) slack).getD i 0 = 0 ∧
    (assignedColumnWidths g flags slack).getD i 0 = (columnWidths g flags).getD i 0 ∧
    ((∀ x ∈ columnFills g flags, x = 0) →
      assignedColumnWidths g flags slack = columnWidths g flags) := by
  have hz := distributeSlack_zero_at (columnFills g flags) slack i h0 hi
  have hlen := columnFills_length g flags
  refine ⟨hz, ?_, ?_⟩
  · rw [assignedColumnWidths, addLists_getD _ _ i (by omega)
      (by rw [distributeSlack_length]; exact hi), hz]
    simp
  · intro hall
    rw [assignedColumnWidths, distributeSlack_all_zero _ _ hall]
    exact addLists_zeros _ _ (by simp) (by simp; omega)

/-- Witness for `zero_fill_no_slack` on a one-row grid with two zero-fill
columns and slack 9. -/
theorem zero_fill_no_slack_witness :
    (distributeSlack (columnFills [[mkLeaf 0 10 10 0 0, mkLeaf 1 20 10 0 0]] 0) 9).getD 0 0 = 0 ∧
    (assignedColumnWidths [[mkLeaf 0 10 10 0 0, mkLeaf 1 20 10 0 0]] 0 9).getD 0 0 =
      (columnWidths [[mkLeaf 0 10 10 0 0, mkLeaf 1 20 10 0 0]] 0).getD 0 0 ∧
    ((∀ x ∈ columnFills [[mkLeaf 0 10 10 0 0, mkLeaf 1 20 10 0 0]] 0, x = 0) →
      assignedColumnWidths [[mkLeaf 0 10 10 0 0, mkLeaf 1 20 10 0 0]] 0 9 =
        columnWidths [[mkLeaf 0 10 10 0 0, mkLeaf 1 20 10 0 0]] 0) :=
  zero_fill_no_slack [[mkLeaf 0 10 10 0 0, mkLeaf 1 20 10 0 0]] 0 9 0
    (by decide) (by decide)

/-! ### Tree-builder lemmas -/

theorem runParts_append (a b : List WidgetPart) (s : BuildState) :
    runParts s (a ++ b) = (runParts s a).bind (fun s' => runParts s' b) := by
  induction a generalizing s with
  | nil => simp [runParts]
  | cons p ps ih =>
    simp only [List.cons_append, runParts]
    cases h : buildStep s p with
    | none => simp
    | some s' => simp [ih]

/-- C2: the builder rejects malformed streams outright, returning no
partial tree: an `EndContainer` token arriving while no container is open
(only the synthetic root), a stream whose processing ends with a container
still open, and a setter token arriving while there is no current node all
make `MakeWidgetTree` return `none`. -/
theorem malformed_streams_rejected :
    (∀ (pre suf : List WidgetPart) (s : BuildState),
      runParts initState pre = some s → s.frames = [] →
      MakeWidgetTree (pre ++ EndContainer :: suf) = none) ∧
    (∀ (parts : List WidgetPart) (s : BuildState),
      runParts initState parts = some s → s.frames ≠ [] →
      MakeWidgetTree parts = none) ∧
    (∀ (pre suf : List WidgetPart) (p : WidgetPart) (s : BuildState),
      runParts initState pre = some s → s.cur = .noCur → p.isSetter = true →
      MakeWidgetTree (pre ++ p :: suf) = none) := by
  refine ⟨?_, ?_, ?_⟩
  · intro pre suf s h1 h2
    rw [MakeWidgetTree, runParts_append, h1]
    simp only [Option.some_bind, runParts, EndContainer]
    rw [show buildStep s .endCon = none by rw [buildStep, h2]]
    simp
  · intro parts s h1 h2
    rw [MakeWidgetTree, h1]
    simp only [Option.some_bind]
    rw [finalizeBuild]
    rcases hf : s.frames with _ | ⟨fr, rest⟩
    · exact absurd hf h2
    · rfl
  · intro pre suf p s h1 h2 h3
    rw [MakeWidgetTree, runParts_append, h1]
    simp only [Option.some_bind, runParts]
    have hstep : buildStep s p = none := by
      cases p with
      | minSize a b => simp [buildStep, applySetter, h2]
      | fillStep a b => simp [buildStep, applySetter, h2]
      | resizeStep a b => simp [buildStep, applySetter, h2]
      | padding a b c d => simp [buildStep, applySetter, h2]
      | horPIP a b c => simp [buildStep, applySetter, h2]
      | vertPIP a b c => simp [buildStep, applySetter, h2]
      | dataVal a b => simp [buildStep, applySetter, h2]
      | newWidget a b c => exact absurd h3 (by simp [WidgetPart.isSetter])
      | newIntermediate a b => exact absurd h3 (by simp [WidgetPart.isSetter])
      | equalSizeTok a b => exact absurd h3 (by simp [WidgetPart.isSetter])
      | endCon => exact absurd h3 (by simp [WidgetPart.isSetter])
    rw [hstep]
    simp

/-- Witness for `malformed_streams_rejected`: a lone `EndContainer`, an
unclosed `Intermediate`, and a lone `SetFill` each fail. -/
theorem malformed_streams_rejected_witness :
    MakeWidgetTree [EndContainer] = none ∧
    MakeWidgetTree [Intermediate 1 1] = none ∧
    MakeWidgetTree [SetFill 1 1] = none := by
  refine ⟨?_, ?_, ?_⟩
  · exact malformed_streams_rejected.1 [] [] initState rfl rfl
  · exact malformed_streams_rejected.2.1 [Intermediate 1 1]
      { rootChildren := [], frames := [.gridF (defaultCommon .WT_GRID INVALID_WIDGET_INDEX) 0 1 1 []],
        cur := .topFrame, seen := [], big := INVALID_WIDGET_INDEX }
      rfl (by simp)
  · exact malformed_streams_rejected.2.2 [] [] (SetFill 1 1) initState rfl rfl rfl

theorem appendChild_fields {s : BuildState} {w : BaseWidget} {s' : BuildState}
    (h : appendChild s w = some s') : s'.big = s.big ∧ s'.seen = s.seen := by
  unfold appendChild at h
  split at h
  all_goals first
  | exact Option.noConfusion h
  | (injection h with h; subst h; exact ⟨rfl, rfl⟩)

theorem placeNewWidget_fields {s : BuildState} {wtype : WidgetType} {n : Int}
    {colour : Nat} {s' : BuildState} (h : placeNewWidget s wtype n colour = some s') :
    s'.big = s.big ∧ s'.seen = s.seen := by
  cases wtype <;> simp only [placeNewWidget] at h
  case WT_GRID => exact Option.noConfusion h
  case WT_PANEL =>
    simp only [Option.some.injEq] at h
    subst h
    exact ⟨rfl, rfl⟩
  all_goals exact appendChild_fields h

theorem applySetter_fields {s : BuildState} {p : WidgetPart} {s' : BuildState}
    (h : applySetter s p = some s') : s'.big = s.big ∧ s'.seen = s.seen := by
  unfold applySetter at h
  split at h
  · exact Option.noConfusion h
  · split at h
    all_goals try split at h
    all_goals first
    | exact Option.noConfusion h
    | (injection h with h; subst h; exact ⟨rfl, rfl⟩)
  · split at h
    all_goals
      first
      | exact Option.noConfusion h
      | (injection h with h; subst h; exact ⟨rfl, rfl⟩)
      | (simp only [Option.map_eq_some'] at h
         obtain ⟨l, hl, h⟩ := h
         subst h
         exact ⟨rfl, rfl⟩)

theorem recordNumber_big {s : BuildState} {n : Int} {s' : BuildState}
    (h : recordNumber s n = some s') :
    s'.big = (if n = INVALID_WIDGET_INDEX then s.big else max s.big n) ∧
    s'.frames = s.frames := by
  unfold recordNumber at h
  split at h
  · injection h with h
    subst h
    simp_all
  · split at h
    · exact Option.noConfusion h
    · injection h with h
      subst h
      simp_all

theorem tokenNumbers_cons (p : WidgetPart) (ps : List WidgetPart) :
    tokenNumbers (p :: ps) = tokenNumbers [p] ++ tokenNumbers ps := by
  cases p <;>
    simp only [tokenNumbers, List.filterMap_cons, List.filterMap_nil, List.nil_append] <;>
    try (split <;> simp)

theorem buildStep_big {s : BuildState} {p : WidgetPart} {s' : BuildState}
    (h : buildStep s p = some s') :
    s'.big = List.foldl max s.big (tokenNumbers [p]) := by
  cases p with
  | newWidget wt n col =>
    simp only [buildStep, Option.bind_eq_some] at h
    obtain ⟨s1, h1, h2⟩ := h
    have hb1 := (recordNumber_big h1).1
    have hb2 := (placeNewWidget_fields h2).1
    by_cases hn : n = INVALID_WIDGET_INDEX
    · simp [tokenNumbers, hn, hb2, hb1]
    · simp [tokenNumbers, hn, hb2, hb1]
  | newIntermediate a b =>
    simp only [buildStep, Option.some.injEq] at h
    subst h
    simp [tokenNumbers]
  | endCon =>
    simp only [buildStep] at h
    split at h
    · exact Option.noConfusion h
    · simp only [Option.bind_eq_some] at h
      obtain ⟨w, _, happ⟩ := h
      have := (appendChild_fields happ).1
      simp [tokenNumbers, this]
  | equalSizeTok a b =>
    simp only [buildStep] at h
    split at h
    · injection h with h
      subst h
      simp [tokenNumbers]
    · exact Option.noConfusion h
  | minSize a b =>
    simp [tokenNumbers, (applySetter_fields (by simpa [buildStep] using h)).1]
  | fillStep a b =>
    simp [tokenNumbers, (applySetter_fields (by simpa [buildStep] using h)).1]
  | resizeStep a b =>
    simp [tokenNumbers, (applySetter_fields (by simpa [buildStep] using h)).1]
  | padding a b c d =>
    simp [tokenNumbers, (applySetter_fields (by simpa [buildStep] using h)).1]
  | horPIP a b c =>
    simp [tokenNumbers, (applySetter_fields (by simpa [buildStep] using h)).1]
  | vertPIP a b c =>
    simp [tokenNumbers, (applySetter_fields (by simpa [buildStep] using h)).1]
  | dataVal a b =>
    simp [tokenNumbers, (applySetter_fields (by simpa [buildStep] using h)).1]

theorem runParts_big : ∀ (ps : List WidgetPart) (s s' : BuildState),
    runParts s ps = some s' → s'.big = List.foldl max s.big (tokenNumbers ps) := by
  intro ps
  induction ps with
  | nil =>
    intro s s' h
    simp only [runParts, Option.some.injEq] at h
    subst h
    simp [tokenNumbers]
  | cons p ps ih =>
    intro s s' h
    simp only [runParts, Option.bind_eq_some] at h
    obtain ⟨s1, h1, h2⟩ := h
    rw [ih s1 s' h2, buildStep_big h1, ← List.foldl_append, ← tokenNumbers_cons]

theorem finalizeBuild_inv {s : BuildState} {t : BaseWidget} {b : Int}
    (h : finalizeBuild s = some (t, b)) : b = s.big := by
  unfold finalizeBuild at h
  split at h <;> simp_all

theorem setWidget_mono {a : WidArray} {n : Int} (w : BaseWidget)
    (h : (a n).isSome = true) : ((setWidget w a) n).isSome = true := by
  unfold setWidget
  split
  · exact h
  · dsimp only
    split <;> simp [h]

theorem setWidget_self (a : WidArray) {w : BaseWidget}
    (h : ¬ w.numberOf = INVALID_WIDGET_INDEX) :
    ((setWidget w a) w.numberOf).isSome = true := by
  unfold setWidget
  rw [if_neg h]
  simp

mutual

theorem setup_mono (w : BaseWidget) (a : WidArray) (n : Int)
    (h : (a n).isSome = true) : (((setupMinimalSize w a).2) n).isSome = true := by
  cases w with
  | base c => exact setWidget_mono _ h
  | leaf c d => exact setWidget_mono _ h
  | dataWidget c d v => exact setWidget_mono _ h
  | scrollbar c d cv => exact setWidget_mono _ h
  | backgroundEmpty c d => exact setWidget_mono _ h
  | background c d ch => exact setWidget_mono _ (setup_mono ch a n h)
  | intermediate c nr nc f m => exact setWidget_mono _ (setupMatrix_mono m a n h)

theorem setupRow_mono (row : WidgetList) (a : WidArray) (n : Int)
    (h : (a n).isSome = true) : (((setupRow row a).2) n).isSome = true := by
  cases row with
  | nil => exact h
  | cons w rest => exact setupRow_mono rest _ n (setup_mono w a n h)

theorem setupMatrix_mono (m : WidgetMatrix) (a : WidArray) (n : Int)
    (h : (a n).isSome = true) : (((setupMatrix m a).2) n).isSome = true := by
  cases m with
  | nil => exact h
  | cons row rest => exact setupMatrix_mono rest _ n (setupRow_mono row a n h)

end

mutual

theorem setup_registers (w : BaseWidget) (a : WidArray) (n : Int)
    (hn : n ∈ treeNumbers w) (hinv : ¬ n = INVALID_WIDGET_INDEX) :
    (((setupMinimalSize w a).2) n).isSome = true := by
  cases w with
  | base c =>
    simp only [treeNumbers, nodesOf, List.map, List.mem_singleton] at hn
    subst hn
    exact setWidget_self a hinv
  | leaf c d =>
    simp only [treeNumbers, nodesOf, List.map, List.mem_singleton] at hn
    subst hn
    exact setWidget_self a hinv
  | dataWidget c d v =>
    simp only [treeNumbers, nodesOf, List.map, List.mem_singleton] at hn
    subst hn
    exact setWidget_self a hinv
  | scrollbar c d cv =>
    simp only [treeNumbers, nodesOf, List.map, List.mem_singleton] at hn
    subst hn
    exact setWidget_self a hinv
  | backgroundEmpty c d =>
    simp only [treeNumbers, nodesOf, List.map, List.mem_singleton] at hn
    subst hn
    exact setWidget_self a hinv
  | background c d ch =>
    simp only [treeNumbers, nodesOf, List.map_cons, List.mem_cons] at hn
    rcases hn with rfl | hn
    · exact setWidget_self _ hinv
    · exact setWidget_mono _ (setup_registers ch a n hn hinv)
  | intermediate c nr nc f m =>
    simp only [treeNumbers, nodesOf, List.map_cons, List.mem_cons] at hn
    rcases hn with rfl | hn
    · exact setWidget_self _ hinv
    · exact setWidget_mono _ (setupMatrix_registers m a n hn hinv)

theorem setupRow_registers (row : WidgetList) (a : WidArray) (n : Int)
    (hn : n ∈ (nodesRow row).map BaseWidget.numberOf)
    (hinv : ¬ n = INVALID_WIDGET_INDEX) :
    (((setupRow row a).2) n).isSome = true := by
  cases row with
  | nil => simp [nodesRow] at hn
  | cons w rest =>
    simp only [nodesRow, List.map_append, List.mem_append] at hn
    rcases hn with hn | hn
    · exact setupRow_mono rest _ n (setup_registers w a n hn hinv)
    · exact setupRow_registers rest _ n hn hinv

theorem setupMatrix_registers (m : WidgetMatrix) (a : WidArray) (n : Int)
    (hn : n ∈ (nodesMatrix m).map BaseWidget.numberOf)
    (hinv : ¬ n = INVALID_WIDGET_INDEX) :
    (((setupMatrix m a).2) n).isSome = true := by
  cases m with
  | nil => simp [nodesMatrix] at hn
  | cons row rest =>
    simp only [nodesMatrix, List.map_append, List.mem_append] at hn
    rcases hn with hn | hn
    · exact setupMatrix_mono rest _ n (setupRow_registers row a n hn hinv)
    · exact setupMatrix_registers rest _ n hn hinv

end

/-- C3 counterexample: `MakeWidgetTree` itself records nothing in the
widget-number lookup array. Per the header it has no access to one — its
signature is `MakeWidgetTree(const WidgetPart *parts, int length, int16
*biggest)`, while the array is the parameter of `SetupMinimalSize` /
`SetWidget`. For the concrete one-token stream creating a widget numbered
0, construction succeeds, yet the lookup array right after construction is
still empty at index 0; only running the minimal-size pass fills it. -/
theorem builder_registration_counterexample :
    (MakeWidgetTree [Widget .WT_EMPTY 0 0]).isSome = true ∧
    emptyWidArray 0 = none ∧
    ((setupMinimalSize (((MakeWidgetTree [Widget .WT_EMPTY 0 0]).getD (default, 0)).1)
      emptyWidArray).2 0).isSome = true :=
  ⟨by decide, rfl, by decide⟩

/-- C3 (amended): the tree builder reports the maximum widget number
referenced through its `biggest` out-parameter and rejects a duplicate
widget number as malformed input; the recording of every node with a
non-sentinel widget number into the flat index array is performed by the
minimal-size pass (`SetupMinimalSize` calling `SetWidget` on the array the
caller provides), not by `MakeWidgetTree` itself. -/
theorem builder_reports_max_pass_registers :
    (∀ (pre suf : List WidgetPart) (wt : WidgetType) (n : Int) (col : Nat) (s : BuildState),
      runParts initState pre = some s → ¬ n = INVALID_WIDGET_INDEX → n ∈ s.seen →
      MakeWidgetTree (pre ++ Widget wt n col :: suf) = none) ∧
    (∀ (parts : List WidgetPart) (t : BaseWidget) (b : Int),
      MakeWidgetTree parts = some (t, b) →
      b = List.foldl max INVALID_WIDGET_INDEX (tokenNumbers parts)) ∧
    (∀ (parts : List WidgetPart) (t : BaseWidget) (b : Int),
      MakeWidgetTree parts = some (t, b) →
      ∀ n ∈ treeNumbers t, ¬ n = INVALID_WIDGET_INDEX →
        (((setupMinimalSize t emptyWidArray).2) n).isSome = true) := by
  refine ⟨?_, ?_, ?_⟩
  · intro pre suf wt n col s h1 h2 h3
    rw [MakeWidgetTree, runParts_append, h1]
    simp only [Option.some_bind, runParts]
    have hrec : recordNumber s n = none := by
      unfold recordNumber
      rw [if_neg h2, if_pos h3]
    rw [show Widget wt n col = WidgetPart.newWidget wt n col from rfl]
    simp [buildStep, hrec]
  · intro parts t b h
    rw [MakeWidgetTree] at h
    simp only [Option.bind_eq_some] at h
    obtain ⟨s', h1, h2⟩ := h
    rw [finalizeBuild_inv h2, runParts_big parts initState s' h1]
    rfl
  · intro parts t b _ n hn hinv
    exact setup_registers t emptyWidArray n hn hinv

/-- Witness for `builder_reports_max_pass_registers`: a duplicated number 5
fails, the padded-panel stream reports maximum 1, and its node numbered 1
is registered by the pass. -/
theorem builder_reports_max_pass_registers_witness :
    MakeWidgetTree ([Widget .WT_PANEL 5 0] ++ Widget .WT_EMPTY 5 0 :: []) = none ∧
    (1 : Int) = List.foldl max INVALID_WIDGET_INDEX (tokenNumbers partsPaddedPanel) ∧
    (((setupMinimalSize treePaddedPanel emptyWidArray).2) 1).isSome = true := by
  refine ⟨?_, ?_, ?_⟩
  · exact builder_reports_max_pass_registers.1 [Widget .WT_PANEL 5 0] [] .WT_EMPTY 5 0
      { rootChildren := [], frames := [.bgF (defaultCommon .WT_PANEL 5) ⟨0, 0, 0⟩ none],
        cur := .topFrame, seen := [5], big := 5 }
      rfl (by decide) (by decide)
  · exact builder_reports_max_pass_registers.2.1 partsPaddedPanel treePaddedPanel 1 rfl
  · exact builder_reports_max_pass_registers.2.2 partsPaddedPanel treePaddedPanel 1 rfl 1
      (by decide) (by decide)

/-- C4: under the horizontal equal-size flag every column's minimal width
is the maximum over all columns (symmetrically for rows under the vertical
flag); concretely, the grid with columns of minimal widths `[10, 30, 20]`
and the horizontal flag reports `[30, 30, 30]`, and its total minimal
width after the pass is 90. -/
theorem equal_size_forces_max (g : List (List BaseWidget)) (flags : Nat) :
    (eqsHorizontal flags = true →
      ∀ x ∈ columnWidths g flags, x = maxList (rawColumnWidths g)) ∧
    (eqsVertical flags = true →
      ∀ x ∈ rowHeights g flags, x = maxList (rawRowHeights g)) ∧
    columnWidths (gridChilds treeEqualSize) (gridFlags treeEqualSize) = [30, 30, 30] ∧
    (setupMinimalSize treeEqualSize emptyWidArray).1.minX = 90 := by
  refine ⟨?_, ?_, by decide, by decide⟩
  · intro hh x hx
    simp only [columnWidths, equalize, hh, if_pos] at hx
    obtain ⟨y, _, rfl⟩ := List.mem_map.mp hx
    rfl
  · intro hv x hx
    simp only [rowHeights, equalize, hv, if_pos] at hx
    obtain ⟨y, _, rfl⟩ := List.mem_map.mp hx
    rfl

/-- Witness for `equal_size_forces_max` on the `[10, 30, 20]` grid. -/
theorem equal_size_forces_max_witness :
    (∀ x ∈ columnWidths (gridChilds treeEqualSize) (gridFlags treeEqualSize),
      x = maxList (rawColumnWidths (gridChilds treeEqualSize))) ∧
    columnWidths (gridChilds treeEqualSize) (gridFlags treeEqualSize) = [30, 30, 30] := by
  have h := equal_size_forces_max (gridChilds treeEqualSize) (gridFlags treeEqualSize)
  exact ⟨h.1 (by decide), h.2.2.1⟩

/-- C5: a background's minimal size is the maximum of its own minimum and
its child's computed minimal size plus the background's own padding on all
four sides; with no child it is its own minimum alone; concretely a panel
with padding (top 2, left 3, right 3, bottom 2) around a child of minimal
size (10, 10) gets minimal size (16, 14). -/
theorem background_min_size (c : WidgetCommon) (d : LeafData) (ch : BaseWidget) (a : WidArray) :
    ((setupMinimalSize (.background c d ch) a).1.minX =
      max c.min_x ((setupMinimalSize ch a).1.minX + c.paddings.left + c.paddings.right) ∧
     (setupMinimalSize (.background c d ch) a).1.minY =
      max c.min_y ((setupMinimalSize ch a).1.minY + c.paddings.top + c.paddings.bottom)) ∧
    ((setupMinimalSize (.backgroundEmpty c d) a).1.minX = c.min_x ∧
     (setupMinimalSize (.backgroundEmpty c d) a).1.minY = c.min_y) ∧
    ((setupMinimalSize treePaddedPanel emptyWidArray).1.minX = 16 ∧
     (setupMinimalSize treePaddedPanel emptyWidArray).1.minY = 14) :=
  ⟨⟨rfl, rfl⟩, ⟨rfl, rfl⟩, by decide, by decide⟩

/-! ### Geometry erasure: the layout passes preserve tree structure -/

mutual

theorem setup_eraseGeom (w : BaseWidget) (a : WidArray) :
    eraseGeom ((setupMinimalSize w a).1) = eraseGeom w := by
  cases w with
  | base c => rfl
  | leaf c d => rfl
  | dataWidget c d v => rfl
  | scrollbar c d cv => rfl
  | backgroundEmpty c d => rfl
  | background c d ch =>
    simp only [setupMinimalSize, eraseGeom]
    rw [setup_eraseGeom ch a]
    rfl
  | intermediate c nr nc f m =>
    simp only [setupMinimalSize, eraseGeom]
    rw [setupMatrix_eraseGeom m a]
    rfl

theorem setupRow_eraseGeom (row : WidgetList) (a : WidArray) :
    eraseGeomRow ((setupRow row a).1) = eraseGeomRow row := by
  cases row with
  | nil => rfl
  | cons w rest =>
    simp only [setupRow, eraseGeomRow]
    rw [setup_eraseGeom w a, setupRow_eraseGeom rest _]

theorem setupMatrix_eraseGeom (m : WidgetMatrix) (a : WidArray) :
    eraseGeomMatrix ((setupMatrix m a).1) = eraseGeomMatrix m := by
  cases m with
  | nil => rfl
  | cons row rest =>
    simp only [setupMatrix, eraseGeomMatrix]
    rw [setupRow_eraseGeom row a, setupMatrix_eraseGeom rest _]

end

mutual

theorem setPos_eraseGeom (w : BaseWidget) (r : Rectangle16) :
    eraseGeom (setSmallestSizePosition w r) = eraseGeom w := by
  cases w with
  | base c => rfl
  | leaf c d => rfl
  | dataWidget c d v => rfl
  | scrollbar c d cv => rfl
  | backgroundEmpty c d => rfl
  | background c d ch =>
    simp only [setSmallestSizePosition, eraseGeom]
    rw [setPos_eraseGeom ch _]
    rfl
  | intermediate c nr nc f m =>
    simp only [setSmallestSizePosition, eraseGeom]
    rw [setPosMatrix_eraseGeom m _ _]
    rfl

theorem setPosRow_eraseGeom (row : WidgetList) (rs : Span) (css : List Span) :
    eraseGeomRow (setPosRow row rs css) = eraseGeomRow row := by
  cases row with
  | nil => rfl
  | cons w rest =>
    cases css with
    | nil => rfl
    | cons cs css' =>
      simp only [setPosRow, eraseGeomRow]
      rw [setPos_eraseGeom w _, setPosRow_eraseGeom rest rs css']

theorem setPosMatrix_eraseGeom (m : WidgetMatrix) (rss css : List Span) :
    eraseGeomMatrix (setPosMatrix m rss css) = eraseGeomMatrix m := by
  cases m with
  | nil => rfl
  | cons row rest =>
    cases rss with
    | nil => rfl
    | cons rs rss' =>
      simp only [setPosMatrix, eraseGeomMatrix]
      rw [setPosRow_eraseGeom row rs css, setPosMatrix_eraseGeom rest rss' css]

end

/-- C9: both layout passes are total functions of the model — they are
defined (and terminate) for every tree, lookup array and allotted
rectangle, they return a tree rather than an error (failure is only
possible in `MakeWidgetTree`, whose result is an `Option`), and they only
mutate the per-node geometry fields: erasing geometry shows each pass
preserves the tree's structure, kinds, numbers, paddings and flags. -/
theorem layout_passes_total (w : BaseWidget) (a : WidArray) (r : Rectangle16) :
    eraseGeom ((setupMinimalSize w a).1) = eraseGeom w ∧
    eraseGeom (setSmallestSizePosition w r) = eraseGeom w :=
  ⟨setup_eraseGeom w a, setPos_eraseGeom w r⟩

/-! ### Monotonicity of the grid aggregation -/

theorem sumList_mono {a b : List Nat} (h : List.Forall₂ (· ≤ ·) a b) :
    sumList a ≤ sumList b := by
  induction h with
  | nil => exact le_refl _
  | cons hx _ ih => exact Nat.add_le_add hx ih

theorem maxList_mono {a b : List Nat} (h : List.Forall₂ (· ≤ ·) a b) :
    maxList a ≤ maxList b := by
  induction h with
  | nil => exact le_refl _
  | cons hx _ ih => exact max_le_max hx ih

theorem maxMerge_mono {a a' b b' : List Nat} (h1 : List.Forall₂ (· ≤ ·) a a')
    (h2 : List.Forall₂ (· ≤ ·) b b') :
    List.Forall₂ (· ≤ ·) (maxMerge a b) (maxMerge a' b') := by
  induction h1 generalizing b b' with
  | nil =>
    cases h2 with
    | nil => exact .nil
    | cons hy hys => exact .cons hy hys
  | cons hx hxs ih =>
    cases h2 with
    | nil => exact .cons hx hxs
    | cons hy hys => exact .cons (max_le_max hx hy) (ih hys)

theorem mapConst_forall₂ {α : Type} {a b : List α} {c c' : Nat} (hc : c ≤ c')
    (h : a.length = b.length) :
    List.Forall₂ (· ≤ ·) (a.map (fun _ => c)) (b.map (fun _ => c')) := by
  induction a generalizing b with
  | nil =>
    cases b with
    | nil => exact .nil
    | cons y ys => simp at h
  | cons x xs ih =>
    cases b with
    | nil => simp at h
    | cons y ys => exact .cons hc (ih (by simpa using h))

theorem equalize_mono {l l' : List Nat} (fl : Bool) (h : List.Forall₂ (· ≤ ·) l l') :
    List.Forall₂ (· ≤ ·) (equalize fl l) (equalize fl l') := by
  unfold equalize
  cases fl with
  | false => simpa using h
  | true =>
    simp only [if_pos]
    exact mapConst_forall₂ (maxList_mono h) h.length_eq

theorem paddedW_mono {w w' : BaseWidget} (h : cellLE w w') : paddedW w ≤ paddedW w' := by
  obtain ⟨h1, _, h3⟩ := h
  have h3' : w.common.paddings = w'.common.paddings := h3
  simp only [paddedW, BaseWidget.pads, h3']
  omega

theorem paddedH_mono {w w' : BaseWidget} (h : cellLE w w') : paddedH w ≤ paddedH w' := by
  obtain ⟨_, h2, h3⟩ := h
  have h3' : w.common.paddings = w'.common.paddings := h3
  simp only [paddedH, BaseWidget.pads, h3']
  omega

theorem rowPadded_mono {row row' : List BaseWidget} (h : List.Forall₂ cellLE row row') :
    List.Forall₂ (· ≤ ·) (row.map paddedW) (row'.map paddedW) := by
  induction h with
  | nil => exact .nil
  | cons hx _ ih => exact .cons (paddedW_mono hx) ih

theorem rowPaddedH_mono {row row' : List BaseWidget} (h : List.Forall₂ cellLE row row') :
    List.Forall₂ (· ≤ ·) (row.map paddedH) (row'.map paddedH) := by
  induction h with
  | nil => exact .nil
  | cons hx _ ih => exact .cons (paddedH_mono hx) ih

theorem rawColumnWidths_mono {g g' : List (List BaseWidget)} (h : gridLE g g') :
    List.Forall₂ (· ≤ ·) (rawColumnWidths g) (rawColumnWidths g') := by
  induction h with
  | nil => exact .nil
  | cons hrow _ ih =>
    exact maxMerge_mono (rowPadded_mono hrow) ih

theorem rawRowHeights_mono {g g' : List (List BaseWidget)} (h : gridLE g g') :
    List.Forall₂ (· ≤ ·) (rawRowHeights g) (rawRowHeights g') := by
  induction h with
  | nil => exact .nil
  | cons hrow _ ih => exact .cons (maxList_mono (rowPaddedH_mono hrow)) ih

/-- C7: the grid minimal-size aggregation is monotonic in the children —
growing any child's minimal width or height (paddings unchanged) never
shrinks the container's minimal width or height. -/
theorem grid_min_size_monotone (g g' : List (List BaseWidget)) (flags : Nat)
    (p : Paddings) (h : gridLE g g') :
    gridMinX g flags p ≤ gridMinX g' flags p ∧
    gridMinY g flags p ≤ gridMinY g' flags p := by
  have hcw : List.Forall₂ (· ≤ ·) (columnWidths g flags) (columnWidths g' flags) :=
    equalize_mono _ (rawColumnWidths_mono h)
  have hrh : List.Forall₂ (· ≤ ·) (rowHeights g flags) (rowHeights g' flags) :=
    equalize_mono _ (rawRowHeights_mono h)
  constructor
  · simp only [gridMinX, hcw.length_eq]
    have := sumList_mono hcw
    omega
  · simp only [gridMinY, hrh.length_eq]
    have := sumList_mono hrh
    omega

/-- Witness for `grid_min_size_monotone`: growing a single cell from
minimal size (10, 10) to (25, 12) does not shrink the grid minimum. -/
theorem grid_min_size_monotone_witness :
    gridMinX [[mkLeaf 0 10 10 0 0]] 0 Paddings.zero ≤
      gridMinX [[mkLeaf 0 25 12 0 0]] 0 Paddings.zero ∧
    gridMinY [[mkLeaf 0 10 10 0 0]] 0 Paddings.zero ≤
      gridMinY [[mkLeaf 0 25 12 0 0]] 0 Paddings.zero :=
  grid_min_size_monotone [[mkLeaf 0 10 10 0 0]] [[mkLeaf 0 25 12 0 0]] 0 Paddings.zero
    (.cons (.cons ⟨by decide, by decide, by decide⟩ .nil) .nil)

/-! ### Write localisation of the minimal-size pass -/

theorem setWidget_writes {w : BaseWidget} {a : WidArray} {n : Int}
    (h : ¬ (setWidget w a) n = a n) :
    n = w.numberOf ∧ ¬ w.numberOf = INVALID_WIDGET_INDEX := by
  unfold setWidget at h
  split at h
  · exact absurd rfl h
  · rename_i hs
    dsimp only at h
    split at h
    · rename_i hn
      exact ⟨hn, hs⟩
    · exact absurd rfl h

mutual

theorem setup_writes (w : BaseWidget) (a : WidArray) (n : Int)
    (h : ¬ ((setupMinimalSize w a).2) n = a n) :
    n ∈ treeNumbers w ∧ ¬ n = INVALID_WIDGET_INDEX := by
  cases w with
  | base c =>
    obtain ⟨h1, h2⟩ := setWidget_writes h
    exact ⟨by simp [treeNumbers, nodesOf, h1], h1 ▸ h2⟩
  | leaf c d =>
    obtain ⟨h1, h2⟩ := setWidget_writes h
    exact ⟨by simp [treeNumbers, nodesOf, h1], h1 ▸ h2⟩
  | dataWidget c d v =>
    obtain ⟨h1, h2⟩ := setWidget_writes h
    exact ⟨by simp [treeNumbers, nodesOf, h1], h1 ▸ h2⟩
  | scrollbar c d cv =>
    obtain ⟨h1, h2⟩ := setWidget_writes h
    exact ⟨by simp [treeNumbers, nodesOf, h1], h1 ▸ h2⟩
  | backgroundEmpty c d =>
    obtain ⟨h1, h2⟩ := setWidget_writes h
    exact ⟨by simp [treeNumbers, nodesOf, h1], h1 ▸ h2⟩
  | background c d ch =>
    by_cases hmid : ((setupMinimalSize ch a).2) n = a n
    · have h' : ¬ (setWidget ((setupMinimalSize (.background c d ch) a).1)
          ((setupMinimalSize ch a).2)) n = ((setupMinimalSize ch a).2) n := by
        rw [hmid]; exact h
      obtain ⟨h1, h2⟩ := setWidget_writes h'
      refine ⟨?_, h1 ▸ h2⟩
      simp [treeNumbers, nodesOf, h1, BaseWidget.numberOf, BaseWidget.common,
        setupMinimalSize]
    · have hcw := setup_writes ch a n hmid
      refine ⟨?_, hcw.2⟩
      simp only [treeNumbers, nodesOf, List.map_cons, List.mem_cons]
      exact Or.inr hcw.1
  | intermediate c nr nc f m =>
    by_cases hmid : ((setupMatrix m a).2) n = a n
    · have h' : ¬ (setWidget ((setupMinimalSize (.intermediate c nr nc f m) a).1)
          ((setupMatrix m a).2)) n = ((setupMatrix m a).2) n := by
        rw [hmid]; exact h
      obtain ⟨h1, h2⟩ := setWidget_writes h'
      refine ⟨?_, h1 ▸ h2⟩
      simp [treeNumbers, nodesOf, h1, BaseWidget.numberOf, BaseWidget.common,
        setupMinimalSize]
    · have hcw := setupMatrix_writes m a n hmid
      refine ⟨?_, hcw.2⟩
      simp only [treeNumbers, nodesOf, List.map_cons, List.mem_cons]
      exact Or.inr hcw.1

theorem setupRow_writes (row : WidgetList) (a : WidArray) (n : Int)
    (h : ¬ ((setupRow row a).2) n = a n) :
    n ∈ (nodesRow row).map BaseWidget.numberOf ∧ ¬ n = INVALID_WIDGET_INDEX := by
  cases row with
  | nil => exact absurd rfl h
  | cons w rest =>
    by_cases hmid : ((setupMinimalSize w a).2) n = a n
    · have h' : ¬ ((setupRow rest ((setupMinimalSize w a).2)).2) n =
          ((setupMinimalSize w a).2) n := by
        intro he
        exact h (by simpa [setupRow, he] using hmid)
      have hcw := setupRow_writes rest _ n h'
      refine ⟨?_, hcw.2⟩
      simp only [nodesRow, List.map_append, List.mem_append]
      exact Or.inr hcw.1
    · have hcw := setup_writes w a n hmid
      refine ⟨?_, hcw.2⟩
      simp only [nodesRow, List.map_append, List.mem_append]
      exact Or.inl hcw.1

theorem setupMatrix_writes (m : WidgetMatrix) (a : WidArray) (n : Int)
    (h : ¬ ((setupMatrix m a).2) n = a n) :
    n ∈ (nodesMatrix m).map BaseWidget.numberOf ∧ ¬ n = INVALID_WIDGET_INDEX := by
  cases m with
  | nil => exact absurd rfl h
  | cons row rest =>
    by_cases hmid : ((setupRow row a).2) n = a n
    · have h' : ¬ ((setupMatrix rest ((setupRow row a).2)).2) n =
          ((setupRow row a).2) n := by
        intro he
        exact h (by simpa [setupMatrix, he] using hmid)
      have hcw := setupMatrix_writes rest _ n h'
      refine ⟨?_, hcw.2⟩
      simp only [nodesMatrix, List.map_append, List.mem_append]
      exact Or.inr hcw.1
    · have hcw := setupRow_writes row a n hmid
      refine ⟨?_, hcw.2⟩
      simp only [nodesMatrix, List.map_append, List.mem_append]
      exact Or.inl hcw.1

end

theorem mem_le_maxNumList {n : Int} {l : List Int} (h : n ∈ l) : n ≤ maxNumList l := by
  induction l with
  | nil => cases h
  | cons y ys ih =>
    rcases List.mem_cons.mp h with rfl | h'
    · exact le_max_left _ _
    · exact le_trans (ih h') (le_max_right _ _)

/-- C10: the reserved sentinel is `-1` (`INVALID_WIDGET_INDEX`, within the
declared signed 16-bit range of the `number` field); registering a node
whose number is the sentinel leaves the lookup array unchanged; and under
the documented convention that every number in the tree is the sentinel or
non-negative, every index the minimal-size pass writes lies in
`[0, maxTreeNumber]`. -/
theorem sentinel_and_write_range (w : BaseWidget) (a : WidArray) (n : Int)
    (hvalid : numbersValid w = true)
    (hwrite : ¬ ((setupMinimalSize w a).2) n = a n) :
    INVALID_WIDGET_INDEX = -1 ∧
    (-32768 ≤ INVALID_WIDGET_INDEX ∧ INVALID_WIDGET_INDEX < 32768) ∧
    (∀ (w' : BaseWidget) (a' : WidArray),
      w'.numberOf = INVALID_WIDGET_INDEX → setWidget w' a' = a') ∧
    (0 ≤ n ∧ n ≤ maxTreeNumber w) := by
  refine ⟨rfl, by decide, ?_, ?_⟩
  · intro w' a' hw'
    unfold setWidget
    rw [if_pos hw']
  · obtain ⟨hmem, hninv⟩ := setup_writes w a n hwrite
    have hall := (List.all_eq_true.mp hvalid) n hmem
    simp only [decide_eq_true_eq] at hall
    refine ⟨?_, mem_le_maxNumList hmem⟩
    simp only [INVALID_WIDGET_INDEX] at hall hninv
    omega

/-- Witness for `sentinel_and_write_range` on the padded-panel tree at the
written index 1. -/
theorem sentinel_and_write_range_witness :
    INVALID_WIDGET_INDEX = -1 ∧
    (0 ≤ (1 : Int) ∧ (1 : Int) ≤ maxTreeNumber treePaddedPanel) := by
  have hs : (((setupMinimalSize treePaddedPanel emptyWidArray).2) 1).isSome = true := by
    decide
  have hwrite : ¬ ((setupMinimalSize treePaddedPanel emptyWidArray).2) 1 =
      emptyWidArray 1 := by
    intro he
    rw [he] at hs
    simp [emptyWidArray] at hs
  have h := sentinel_and_write_range treePaddedPanel emptyWidArray 1 (by decide) hwrite
  exact ⟨h.1, h.2.2.2⟩

/-! ### Helper lemmas for the position-pass invariant -/

theorem spansFrom_length (s : Int) (inter : Nat) (ws : List Nat) :
    (spansFrom s inter ws).length = ws.length := by
  induction ws generalizing s with
  | nil => rfl
  | cons w ws ih => simp [spansFrom, ih]

theorem spansFrom_getD_snd (ws : List Nat) (s : Int) (inter : Nat) (j : Nat)
    (hj : j < ws.length) :
    ((spansFrom s inter ws).getD j (0, 0)).2 = ws.getD j 0 := by
  induction ws generalizing s j with
  | nil => simp at hj
  | cons w ws ih =>
    cases j with
    | zero => rfl
    | succ j' =>
      simp only [spansFrom, List.getD_cons_succ]
      exact ih _ j' (by simpa using hj)

theorem mapConst_getD {α : Type} (l : List α) (i : Nat) (c : Nat) (hi : i < l.length) :
    (l.map (fun _ => c)).getD i 0 = c := by
  induction l generalizing i with
  | nil => simp at hi
  | cons x xs ih =>
    cases i with
    | zero => rfl
    | succ j =>
      simp only [List.map_cons, List.getD_cons_succ]
      exact ih j (by simpa using hi)

theorem getD_mem_of_lt {α : Type} {l : List α} {i : Nat} {d : α} (hi : i < l.length) :
    l.getD i d ∈ l := by
  induction l generalizing i with
  | nil => simp at hi
  | cons x xs ih =>
    cases i with
    | zero => simp
    | succ j =>
      simp only [List.getD_cons_succ]
      exact List.mem_cons_of_mem _ (ih (by simpa using hi))

theorem equalize_getD_ge (fl : Bool) (l : List Nat) (i : Nat) (hi : i < l.length) :
    l.getD i 0 ≤ (equalize fl l).getD i 0 := by
  unfold equalize
  cases fl with
  | false => simp
  | true =>
    simp only [if_pos]
    rw [mapConst_getD l i _ hi]
    exact mem_le_maxList (getD_mem_of_lt hi)

theorem raw_ge_row (g : List (List BaseWidget)) (row : List BaseWidget) (j : Nat)
    (hrow : row ∈ g) :
    (row.map paddedW).getD j 0 ≤ (rawColumnWidths g).getD j 0 := by
  induction g with
  | nil => cases hrow
  | cons r rest ih =>
    simp only [rawColumnWidths, List.foldr_cons]
    rw [maxMerge_getD]
    rcases List.mem_cons.mp hrow with rfl | h'
    · exact le_max_left _ _
    · exact le_trans (ih h') (le_max_right _ _)

theorem row_len_le_raw (g : List (List BaseWidget)) (row : List BaseWidget)
    (hrow : row ∈ g) : row.length ≤ (rawColumnWidths g).length := by
  induction g with
  | nil => cases hrow
  | cons r rest ih =>
    simp only [rawColumnWidths, List.foldr_cons]
    rw [maxMerge_length]
    rcases List.mem_cons.mp hrow with rfl | h'
    · simp
    · exact le_trans (ih h') (le_max_right _ _)

theorem rawRowHeights_length (g : List (List BaseWidget)) :
    (rawRowHeights g).length = g.length := by simp [rawRowHeights]

theorem rawRowHeights_getD (g : List (List BaseWidget)) (i : Nat) (hi : i < g.length) :
    (rawRowHeights g).getD i 0 = maxList ((g.getD i []).map paddedH) := by
  induction g generalizing i with
  | nil => simp at hi
  | cons r rest ih =>
    cases i with
    | zero => rfl
    | succ j =>
      simp only [rawRowHeights, List.map_cons, List.getD_cons_succ]
      exact ih j (by simpa using hi)

theorem getD_map_paddedW (row : List BaseWidget) (j : Nat) (hj : j < row.length) :
    (row.map paddedW).getD j 0 = paddedW (row.getD j default) := by
  induction row generalizing j with
  | nil => simp at hj
  | cons w ws ih =>
    cases j with
    | zero => rfl
    | succ j' =>
      simp only [List.map_cons, List.getD_cons_succ]
      exact ih j' (by simpa using hj)

theorem matRow_toList (m : WidgetMatrix) (i : Nat) :
    (matRow m i).toList = m.toLists.getD i [] := by
  cases m with
  | nil => cases i <;> rfl
  | cons row rest =>
    cases i with
    | zero => rfl
    | succ j =>
      simp only [matRow, WidgetMatrix.toLists, List.getD_cons_succ]
      exact matRow_toList rest j

theorem minConsistentRow_mem (row : WidgetList) (h : minConsistentRow row = true) :
    ∀ w ∈ row.toList, minConsistent w = true := by
  cases row with
  | nil => intro w hw; simp [WidgetList.toList] at hw
  | cons x rest =>
    simp only [minConsistentRow, Bool.and_eq_true] at h
    intro w hw
    rcases List.mem_cons.mp hw with rfl | hw'
    · exact h.1
    · exact minConsistentRow_mem rest h.2 w hw'

theorem minConsistentMatrix_getD (m : WidgetMatrix) (h : minConsistentMatrix m = true)
    (i : Nat) : ∀ w ∈ m.toLists.getD i [], minConsistent w = true := by
  cases m with
  | nil => intro w hw; cases i <;> simp [WidgetMatrix.toLists] at hw
  | cons row rest =>
    simp only [minConsistentMatrix, Bool.and_eq_true] at h
    cases i with
    | zero => exact minConsistentRow_mem row h.1
    | succ j =>
      simp only [WidgetMatrix.toLists, List.getD_cons_succ]
      exact minConsistentMatrix_getD rest h.2 j

theorem rowFits_of_bounds (row : WidgetList) (css : List Span)
    (hlen : row.toList.length ≤ css.length)
    (hb : ∀ j, j < row.toList.length →
      paddedW (row.toList.getD j default) ≤ (css.getD j (0, 0)).2)
    (hmc : ∀ w ∈ row.toList, minConsistent w = true) :
    rowFits row css := by
  cases row with
  | nil => trivial
  | cons w rest =>
    cases css with
    | nil => simp [WidgetList.toList] at hlen
    | cons cs css' =>
      refine ⟨⟨hb 0 (by simp [WidgetList.toList]), hmc w (by simp [WidgetList.toList])⟩, ?_⟩
      refine rowFits_of_bounds rest css' (by simpa [WidgetList.toList] using hlen) ?_ ?_
      · intro j hj
        have := hb (j + 1) (by simp [WidgetList.toList]; omega)
        simpa [WidgetList.toList] using this
      · intro x hx
        exact hmc x (by simp [WidgetList.toList, hx])

theorem matrixFits_of (m : WidgetMatrix) (rss css : List Span)
    (hlen : m.toLists.length ≤ rss.length)
    (hH : ∀ i, i < m.toLists.length →
      ∀ w ∈ (matRow m i).toList, paddedH w ≤ (rss.getD i (0, 0)).2)
    (hW : ∀ i, i < m.toLists.length → rowFits (matRow m i) css) :
    matrixFits m rss css := by
  cases m with
  | nil => trivial
  | cons row rest =>
    cases rss with
    | nil => simp [WidgetMatrix.toLists] at hlen
    | cons rs rss' =>
      refine ⟨⟨hW 0 (by simp [WidgetMatrix.toLists]), ?_⟩, ?_⟩
      · intro w hw
        exact hH 0 (by simp [WidgetMatrix.toLists]) w hw
      · refine matrixFits_of rest rss' css
          (by simpa [WidgetMatrix.toLists] using hlen) ?_ ?_
        · intro i hi w hw
          have := hH (i + 1) (by simp [WidgetMatrix.toLists]; omega) w
            (by simpa [matRow] using hw)
          simpa using this
        · intro i hi
          have := hW (i + 1) (by simp [WidgetMatrix.toLists]; omega)
          simpa [matRow] using this

theorem assignedColumnWidths_length (g : List (List BaseWidget)) (flags slack : Nat) :
    (assignedColumnWidths g flags slack).length = (columnWidths g flags).length := by
  rw [assignedColumnWidths, addLists_length, distributeSlack_length, columnFills_length]
  simp

theorem assignedColumnWidths_ge (g : List (List BaseWidget)) (flags slack i : Nat)
    (hi : i < (columnWidths g flags).length) :
    (columnWidths g flags).getD i 0 ≤ (assignedColumnWidths g flags slack).getD i 0 := by
  rw [assignedColumnWidths, addLists_getD _ _ i hi
    (by rw [distributeSlack_length, columnFills_length]; exact hi)]
  omega

theorem rowFills_length (g : List (List BaseWidget)) (flags : Nat) :
    (rowFills g flags).length = (rowHeights g flags).length := by
  simp [rowFills, rowHeights, equalize_length, rawRowFills, rawRowHeights]

theorem assignedRowHeights_length (g : List (List BaseWidget)) (flags slack : Nat) :
    (assignedRowHeights g flags slack).length = (rowHeights g flags).length := by
  rw [assignedRowHeights, addLists_length, distributeSlack_length, rowFills_length]
  simp

theorem assignedRowHeights_ge (g : List (List BaseWidget)) (flags slack i : Nat)
    (hi : i < (rowHeights g flags).length) :
    (rowHeights g flags).getD i 0 ≤ (assignedRowHeights g flags slack).getD i 0 := by
  rw [assignedRowHeights, addLists_getD _ _ i hi
    (by rw [distributeSlack_length, rowFills_length]; exact hi)]
  omega

theorem setPos_pos (w : BaseWidget) (r : Rectangle16) :
    (setSmallestSizePosition w r).posOf = r := by
  cases w <;> rfl

/-! ### The position-pass invariant: no node is squeezed below its minimum -/

mutual

theorem posInv (w : BaseWidget) (r : Rectangle16)
    (hmc : minConsistent w = true) (hw : w.minX ≤ r.width) (hh : w.minY ≤ r.height) :
    ∀ n ∈ nodesOf (setSmallestSizePosition w r),
      n.minX ≤ n.posOf.width ∧ n.minY ≤ n.posOf.height := by
  cases w with
  | base c =>
    intro n hn
    simp only [setSmallestSizePosition, nodesOf, List.mem_singleton] at hn
    subst hn
    exact ⟨hw, hh⟩
  | leaf c d =>
    intro n hn
    simp only [setSmallestSizePosition, nodesOf, List.mem_singleton] at hn
    subst hn
    exact ⟨hw, hh⟩
  | dataWidget c d v =>
    intro n hn
    simp only [setSmallestSizePosition, nodesOf, List.mem_singleton] at hn
    subst hn
    exact ⟨hw, hh⟩
  | scrollbar c d cv =>
    intro n hn
    simp only [setSmallestSizePosition, nodesOf, List.mem_singleton] at hn
    subst hn
    exact ⟨hw, hh⟩
  | backgroundEmpty c d =>
    intro n hn
    simp only [setSmallestSizePosition, nodesOf, List.mem_singleton] at hn
    subst hn
    exact ⟨hw, hh⟩
  | background c d ch =>
    simp only [minConsistent, Bool.and_eq_true, decide_eq_true_eq] at hmc
    obtain ⟨⟨h1, h2⟩, h3⟩ := hmc
    have hw' : c.min_x ≤ r.width := hw
    have hh' : c.min_y ≤ r.height := hh
    intro n hn
    simp only [setSmallestSizePosition, nodesOf, List.mem_cons] at hn
    rcases hn with rfl | hn
    · exact ⟨hw, hh⟩
    · refine posInv ch (shrinkByPadding r c.paddings) h3 ?_ ?_ n hn
      · simp only [shrinkByPadding]
        omega
      · simp only [shrinkByPadding]
        omega
  | intermediate c nr nc f m =>
    have hmcm : minConsistentMatrix m = true := hmc
    intro n hn
    simp only [setSmallestSizePosition, nodesOf, List.mem_cons] at hn
    rcases hn with rfl | hn
    · exact ⟨hw, hh⟩
    · have hrawlen : (rawRowHeights m.toLists).length = m.toLists.length :=
        rawRowHeights_length m.toLists
      have hrhlen : (rowHeights m.toLists f).length = m.toLists.length := by
        rw [rowHeights, equalize_length, hrawlen]
      have hfrhlen :
          (assignedRowHeights m.toLists f (r.height - c.min_y)).length = m.toLists.length := by
        rw [assignedRowHeights_length, hrhlen]
      have hcwraw : (columnWidths m.toLists f).length = (rawColumnWidths m.toLists).length := by
        rw [columnWidths, equalize_length]
      have hfcwlen :
          (assignedColumnWidths m.toLists f (r.width - c.min_x)).length =
            (columnWidths m.toLists f).length :=
        assignedColumnWidths_length _ _ _
      refine posInvMatrix m _ _ (matrixFits_of m _ _ ?_ ?_ ?_) n hn
      · rw [spansFrom_length, hfrhlen]
      · intro i hi x hx
        rw [matRow_toList] at hx
        rw [spansFrom_getD_snd _ _ _ i (by rw [hfrhlen]; exact hi)]
        have s1 : paddedH x ≤ (rawRowHeights m.toLists).getD i 0 := by
          rw [rawRowHeights_getD _ i hi]
          exact mem_le_maxList (List.mem_map_of_mem paddedH hx)
        have s2 : (rawRowHeights m.toLists).getD i 0 ≤ (rowHeights m.toLists f).getD i 0 :=
          equalize_getD_ge _ _ i (by rw [hrawlen]; exact hi)
        have s3 : (rowHeights m.toLists f).getD i 0 ≤
            (assignedRowHeights m.toLists f (r.height - c.min_y)).getD i 0 :=
          assignedRowHeights_ge _ _ _ i (by rw [hrhlen]; exact hi)
        omega
      · intro i hi
        have hrowmem : m.toLists.getD i [] ∈ m.toLists := getD_mem_of_lt hi
        have hrl : (m.toLists.getD i []).length ≤ (rawColumnWidths m.toLists).length :=
          row_len_le_raw _ _ hrowmem
        refine rowFits_of_bounds _ _ ?_ ?_ ?_
        · rw [matRow_toList, spansFrom_length, hfcwlen, hcwraw]
          exact hrl
        · intro j hj
          rw [matRow_toList] at hj ⊢
          have hjraw : j < (rawColumnWidths m.toLists).length := lt_of_lt_of_le hj hrl
          rw [spansFrom_getD_snd _ _ _ j (by rw [hfcwlen, hcwraw]; exact hjraw)]
          have s1 : paddedW ((m.toLists.getD i []).getD j default) ≤
              (rawColumnWidths m.toLists).getD j 0 := by
            rw [← getD_map_paddedW _ j hj]
            exact raw_ge_row _ _ j hrowmem
          have s2 : (rawColumnWidths m.toLists).getD j 0 ≤
              (columnWidths m.toLists f).getD j 0 :=
            equalize_getD_ge _ _ j hjraw
          have s3 : (columnWidths m.toLists f).getD j 0 ≤
              (assignedColumnWidths m.toLists f (r.width - c.min_x)).getD j 0 :=
            assignedColumnWidths_ge _ _ _ j (by rw [hcwraw]; exact hjraw)
          omega
        · rw [matRow_toList]
          exact minConsistentMatrix_getD m hmcm i

theorem posInvRow (row : WidgetList) (rs : Span) (css : List Span)
    (hfit : rowFits row css) (hH : ∀ x ∈ row.toList, paddedH x ≤ rs.2) :
    ∀ n ∈ nodesRow (setPosRow row rs css),
      n.minX ≤ n.posOf.width ∧ n.minY ≤ n.posOf.height := by
  cases row with
  | nil =>
    intro n hn
    simp [setPosRow, nodesRow] at hn
  | cons w rest =>
    cases css with
    | nil => exact hfit.elim
    | cons cs css' =>
      obtain ⟨⟨hpw, hmcw⟩, hrest⟩ := hfit
      intro n hn
      simp only [setPosRow, nodesRow, List.mem_append] at hn
      rcases hn with hn | hn
      · have hph : paddedH w ≤ rs.2 := hH w (by simp [WidgetList.toList])
        refine posInv w _ hmcw ?_ ?_ n hn
        · simp only [shrinkByPadding, paddedW] at hpw ⊢
          simp only [BaseWidget.pads] at hpw ⊢
          omega
        · simp only [shrinkByPadding, paddedH] at hph ⊢
          simp only [BaseWidget.pads] at hph ⊢
          omega
      · exact posInvRow rest rs css' hrest
          (fun x hx => hH x (by simp [WidgetList.toList, hx])) n hn

theorem posInvMatrix (m : WidgetMatrix) (rss css : List Span)
    (hfit : matrixFits m rss css) :
    ∀ n ∈ nodesMatrix (setPosMatrix m rss css),
      n.minX ≤ n.posOf.width ∧ n.minY ≤ n.posOf.height := by
  cases m with
  | nil =>
    intro n hn
    simp [setPosMatrix, nodesMatrix] at hn
  | cons row rest =>
    cases rss with
    | nil => exact hfit.elim
    | cons rs rss' =>
      obtain ⟨⟨hrow, hH⟩, hrest⟩ := hfit
      intro n hn
      simp only [setPosMatrix, nodesMatrix, List.mem_append] at hn
      rcases hn with hn | hn
      · exact posInvRow row rs css hrow hH n hn
      · exact posInvMatrix rest rss' css hrest n hn

end

mutual

theorem setup_minConsistent (w : BaseWidget) (a : WidArray) :
    minConsistent ((setupMinimalSize w a).1) = true := by
  cases w with
  | base c => rfl
  | leaf c d => rfl
  | dataWidget c d v => rfl
  | scrollbar c d cv => rfl
  | backgroundEmpty c d => rfl
  | background c d ch =>
    simp only [setupMinimalSize, minConsistent, Bool.and_eq_true, decide_eq_true_eq]
    refine ⟨⟨le_max_right _ _, le_max_right _ _⟩, setup_minConsistent ch a⟩
  | intermediate c nr nc f m =>
    simp only [setupMinimalSize, minConsistent]
    exact setupMatrix_minConsistent m a

theorem setupRow_minConsistent (row : WidgetList) (a : WidArray) :
    minConsistentRow ((setupRow row a).1) = true := by
  cases row with
  | nil => rfl
  | cons w rest =>
    simp only [setupRow, minConsistentRow, Bool.and_eq_true]
    exact ⟨setup_minConsistent w a, setupRow_minConsistent rest _⟩

theorem setupMatrix_minConsistent (m : WidgetMatrix) (a : WidArray) :
    minConsistentMatrix ((setupMatrix m a).1) = true := by
  cases m with
  | nil => rfl
  | cons row rest =>
    simp only [setupMatrix, minConsistentMatrix, Bool.and_eq_true]
    exact ⟨setupRow_minConsistent row a, setupMatrix_minConsistent rest _⟩

end

/-- C6 counterexample: the zero-slack round trip does not give every leaf
exactly its minimal size. Take a background whose own minimum (50, 50)
exceeds its child's minimum (10, 10): the computed minimal size is
(50, 50), and the position pass hands the child the full 50-wide rectangle
(minus the zero padding), so the leaf is assigned width 50 ≠ 10. -/
theorem roundtrip_exact_counterexample :
    wellFormed bgStretch = true ∧
    ¬ (∀ n ∈ nodesOf (setSmallestSizePosition ((setupMinimalSize bgStretch emptyWidArray).1)
        ⟨0, 0, ((setupMinimalSize bgStretch emptyWidArray).1).minX,
          ((setupMinimalSize bgStretch emptyWidArray).1).minY⟩),
        isLeafNode n = true → n.posOf.width = n.minX ∧ n.posOf.height = n.minY) := by
  constructor
  · rfl
  · decide

/-- C6 (amended): running the minimal-size pass and then the position pass
with an allotted rectangle exactly equal to the computed minimal size
assigns the root exactly that rectangle and assigns every node — leaves
included — a size at least its minimal size; a leaf can exceed its minimum
when its cell is stretched by a sibling or an oversized parent, so equality
for every leaf does not hold in general. -/
theorem roundtrip_assigns_at_least_min (w : BaseWidget) (a : WidArray) (r : Rectangle16)
    (hwf : wellFormed w = true)
    (hw : r.width = ((setupMinimalSize w a).1).minX)
    (hh : r.height = ((setupMinimalSize w a).1).minY) :
    (setSmallestSizePosition ((setupMinimalSize w a).1) r).posOf = r ∧
    ∀ n ∈ nodesOf (setSmallestSizePosition ((setupMinimalSize w a).1) r),
      n.minX ≤ n.posOf.width ∧ n.minY ≤ n.posOf.height :=
  ⟨setPos_pos _ _,
   posInv _ r (setup_minConsistent w a) (le_of_eq hw.symm) (le_of_eq hh.symm)⟩

/-- Witness for `roundtrip_assigns_at_least_min` on the padded-panel tree
with its exact minimal rectangle (16, 14). -/
theorem roundtrip_assigns_at_least_min_witness :
    (setSmallestSizePosition ((setupMinimalSize treePaddedPanel emptyWidArray).1)
      ⟨0, 0, 16, 14⟩).posOf = ⟨0, 0, 16, 14⟩ ∧
    ∀ n ∈ nodesOf (setSmallestSizePosition ((setupMinimalSize treePaddedPanel emptyWidArray).1)
        ⟨0, 0, 16, 14⟩),
      n.minX ≤ n.posOf.width ∧ n.minY ≤ n.posOf.height :=
  roundtrip_assigns_at_least_min treePaddedPanel emptyWidArray ⟨0, 0, 16, 14⟩
    (by decide) (by decide) (by decide)

end FreeRCT
